import Mathlib

/-!
Shallow embedding of the student-app API core (Django REST app `app/student`
plus `app/core/models.py`), covering the data model (Student, Tag, Course and
their many-to-many association tables), the owner-scoped querysets of
`student/views.py`, and the serializer create/update logic of
`student/serializers.py`.

Conventions of the embedding:
* the relational store is a `DB` record of lists of rows; the two Django
  many-to-many through tables are lists of (student id, label id) pairs;
* Python exceptions are modelled by `ApiError`: `notFound` is DRF `Http404`
  (HTTP 404), `forbidden` is `PermissionDenied` (403), `validationError` is
  DRF `ValidationError` (400 with field-level detail), and `serverError` is
  any exception the REST framework's exception handler does not translate
  (e.g. `ValueError` from `int()`, `MultipleObjectsReturned` from `get()`),
  which surfaces as HTTP 500;
* mutating operations return the (possibly partially) updated `DB` next to
  the `Except` result, because the code runs without an enclosing rollback:
  an exception leaves all rows written so far in place.
-/

deriving instance DecidableEq for Except

namespace StudentApp

/-- A row of `core.models.Student`: owner foreign key `user`, the free-text
columns, and the nullable image file reference. -/
structure Student where
  id : Nat
  user : Nat
  name : String
  email : String
  address : String
  birthday : String
  link : String
  image : Option String
deriving DecidableEq, Repr

/-- A row of `core.models.Tag`: `title` plus owner foreign key `user`. -/
structure Tag where
  id : Nat
  title : String
  user : Nat
deriving DecidableEq, Repr

/-- A row of `core.models.Course`: same shape as `Tag`. -/
structure Course where
  id : Nat
  title : String
  user : Nat
deriving DecidableEq, Repr

/-- The relational store: the three entity tables, the two many-to-many
through tables (pairs of (student id, label id)), and the id sequences. -/
structure DB where
  students : List Student
  tags : List Tag
  courses : List Course
  studentTags : List (Nat × Nat)
  studentCourses : List (Nat × Nat)
  nextStudentId : Nat
  nextTagId : Nat
  nextCourseId : Nat
deriving DecidableEq, Repr

/-- How a request can fail. `notFound` is `Http404` (→ 404); `forbidden` is
`PermissionDenied` (→ 403); `validationError` is DRF `ValidationError`
(→ 400 with field-level detail); `serverError` is an exception the DRF
exception handler does not translate (`ValueError`, `MultipleObjectsReturned`),
surfacing as HTTP 500 without field detail. -/
inductive ApiError where
  | notFound
  | forbidden
  | validationError
  | serverError
deriving DecidableEq, Repr

/-- The value of a decimal digit character. -/
def digitVal? (c : Char) : Option Nat :=
  if '0' ≤ c ∧ c ≤ '9' then some (c.toNat - '0'.toNat) else none

/-- Accumulate a decimal digit string into a number; any non-digit
character fails. -/
def digitsAux : List Char → Nat → Option Nat
  | [], acc => some acc
  | c :: cs, acc =>
    match digitVal? c with
    | none => none
    | some d => digitsAux cs (acc * 10 + d)

/-- A non-empty all-digit character list as a number. -/
def digitsToNat? (cs : List Char) : Option Nat :=
  if cs.isEmpty then none else digitsAux cs 0

/-- Python `int(s)` on the forms exercised by this API: an optional sign
followed by decimal digits; anything else raises `ValueError` (`none`).
(Python also strips whitespace and allows underscores between digits;
those forms never occur here and are not modelled.) -/
def pyInt? (s : String) : Option Int :=
  match s.data with
  | [] => none
  | '-' :: cs => (digitsToNat? cs).map (fun n => -(n : Int))
  | '+' :: cs => (digitsToNat? cs).map (fun n => (n : Int))
  | _ => (digitsToNat? s.data).map (fun n => (n : Int))

/-- Python `str.split(',')`: cut at every comma, keeping empty pieces
(so `""` gives `[""]` and `"1,,2"` gives `["1","","2"]`). -/
def splitCommaChars : List Char → List (List Char)
  | [] => [[]]
  | c :: cs =>
    if c = ',' then [] :: splitCommaChars cs
    else
      match splitCommaChars cs with
      | [] => [[c]]
      | p :: ps => (c :: p) :: ps

/-- `qs.split(',')` as a `String` operation. -/
def pySplitComma (s : String) : List String :=
  (splitCommaChars s.data).map String.mk

/-- `StudentViewSet._params_to_ints`: split the query string on commas and
convert each piece with `int()`; the first malformed piece raises
`ValueError` (`none`). -/
def paramsToInts (qs : String) : Option (List Int) :=
  (pySplitComma qs).mapM pyInt?

/-- Python truthiness of `request.query_params.get(...)`: `None` and the
empty string are falsy, any other string is truthy. -/
def truthyParam : Option String → Bool
  | none => false
  | some s => s ≠ ""

/-- Insert `x` into `l` in front of the first element `y` with `le x y`. -/
def insortBy {α : Type} (le : α → α → Bool) (x : α) : List α → List α
  | [] => [x]
  | y :: ys => if le x y then x :: y :: ys else y :: insortBy le x ys

/-- Insertion sort with respect to the boolean relation `le`; models the
SQL `ORDER BY` applied by `order_by(...)`. -/
def sortedBy {α : Type} (le : α → α → Bool) (l : List α) : List α :=
  l.foldr (insortBy le) []

/-- `order_by('-id')` comparison for students: descending id. -/
def studentDescId (a b : Student) : Bool := b.id ≤ a.id

/-- Lexicographic ≤ on character lists (an executable form of the list
order underlying `String` comparison; see `strLeb_iff`). -/
def leAux : List Char → List Char → Bool
  | [], _ => true
  | _ :: _, [] => false
  | a :: as, b :: bs =>
    if a < b then true
    else if b < a then false
    else leAux as bs

/-- Lexicographic (codepoint) ≤ on strings, the order `ORDER BY title`
sorts by. -/
def strLeb (s t : String) : Bool := leAux s.data t.data

/-- `order_by('-title')` comparison for tags: descending title. -/
def tagDescTitle (a b : Tag) : Bool := strLeb b.title a.title

/-- `order_by('-title')` comparison for courses: descending title. -/
def courseDescTitle (a b : Course) : Bool := strLeb b.title a.title

/-- `queryset.filter(tags__id__in=tag_ids)`: the SQL join against the
Student–Tag through table, producing one row copy per matching association
row (hence the `.distinct()` later in the pipeline). -/
def tagFilterRows (db : DB) (ids : List Int) (rows : List Student) : List Student :=
  rows.flatMap (fun s =>
    (db.studentTags.filter (fun r => r.1 = s.id && ((r.2 : Int) ∈ ids))).map (fun _ => s))

/-- `queryset.filter(courses__id__in=course_ids)`: same join through the
Student–Course table. -/
def courseFilterRows (db : DB) (ids : List Int) (rows : List Student) : List Student :=
  rows.flatMap (fun s =>
    (db.studentCourses.filter (fun r => r.1 = s.id && ((r.2 : Int) ∈ ids))).map (fun _ => s))

/-- Parse one of the `tags`/`courses` query parameters the way
`StudentViewSet.get_queryset` does: `if tags:` skips the filter for an
absent or empty parameter; otherwise `_params_to_ints` runs and a malformed
piece raises an uncaught `ValueError`. -/
def parseFilterParam (p : Option String) : Except ApiError (Option (List Int)) :=
  match p with
  | none => .ok none
  | some s =>
    if s = "" then .ok none
    else
      match paramsToInts s with
      | none => .error .serverError
      | some ids => .ok (some ids)

/-- `StudentViewSet.get_queryset`: optional tag and course joins, then
`filter(user=request.user).order_by('-id').distinct()`. The `tags`
parameter is examined (and can raise) before `courses`, as in the source. -/
def studentQueryset (db : DB) (u : Nat) (tagsP coursesP : Option String) :
    Except ApiError (List Student) :=
  match parseFilterParam tagsP with
  | .error e => .error e
  | .ok tids =>
    match parseFilterParam coursesP with
    | .error e => .error e
    | .ok cids =>
      let qs := db.students
      let qs := match tids with
        | none => qs
        | some ids => tagFilterRows db ids qs
      let qs := match cids with
        | none => qs
        | some ids => courseFilterRows db ids qs
      .ok ((sortedBy studentDescId (qs.filter (fun s => s.user = u))).dedup)

/-- `filter(student__isnull=False)` on the Tag queryset: the join against
the Student–Tag through table, one row copy per association row. -/
def assignedTagRows (db : DB) (rows : List Tag) : List Tag :=
  rows.flatMap (fun t =>
    (db.studentTags.filter (fun r => r.2 = t.id)).map (fun _ => t))

/-- `filter(student__isnull=False)` on the Course queryset. -/
def assignedCourseRows (db : DB) (rows : List Course) : List Course :=
  rows.flatMap (fun t =>
    (db.studentCourses.filter (fun r => r.2 = t.id)).map (fun _ => t))

/-- `bool(int(query_params.get('assigned_only', 0)))`: the default is the
integer `0`; a present value goes through `int()` (uncaught `ValueError` on
a malformed value) and any nonzero result is truthy. -/
def parseAssignedOnly (p : Option String) : Except ApiError Bool :=
  match p with
  | none => .ok false
  | some s =>
    match pyInt? s with
    | none => .error .serverError
    | some n => .ok (n ≠ 0)

/-- `BaseStudentAttrViewSet.get_queryset` for `TagViewSet`: optional
assigned-only join, then `filter(user=...).order_by('-title').distinct()`. -/
def tagQueryset (db : DB) (u : Nat) (assignedP : Option String) :
    Except ApiError (List Tag) :=
  match parseAssignedOnly assignedP with
  | .error e => .error e
  | .ok assigned =>
    let qs := if assigned then assignedTagRows db db.tags else db.tags
    .ok ((sortedBy tagDescTitle (qs.filter (fun t => t.user = u))).dedup)

/-- `BaseStudentAttrViewSet.get_queryset` for `CourseViewSet`. -/
def courseQueryset (db : DB) (u : Nat) (assignedP : Option String) :
    Except ApiError (List Course) :=
  match parseAssignedOnly assignedP with
  | .error e => .error e
  | .ok assigned =>
    let qs := if assigned then assignedCourseRows db db.courses else db.courses
    .ok ((sortedBy courseDescTitle (qs.filter (fun t => t.user = u))).dedup)

/-- DRF `get_object` on a detail route: look the pk up inside
`get_queryset()` (no filter parameters are sent on detail routes, so the
queryset is the requester's students); a miss raises `Http404`. -/
def getObject (db : DB) (u : Nat) (sid : Nat) : Option Student :=
  (db.students.filter (fun s => s.user = u)).find? (fun s => s.id = sid)

/-- `GET /students/{id}`: serialize `get_object()` or 404. -/
def readStudent (db : DB) (u : Nat) (sid : Nat) : Except ApiError Student :=
  match getObject db u sid with
  | none => .error .notFound
  | some s => .ok s

/-- `DELETE /students/{id}`: `get_object()` then `instance.delete()`, which
removes the student row and cascades its through-table rows (the labels
themselves stay). -/
def deleteStudent (db : DB) (u : Nat) (sid : Nat) : (Except ApiError Unit) × DB :=
  match getObject db u sid with
  | none => (.error .notFound, db)
  | some _ =>
    (.ok (), { db with
      students := db.students.filter (fun s => s.id ≠ sid),
      studentTags := db.studentTags.filter (fun r => r.1 ≠ sid),
      studentCourses := db.studentCourses.filter (fun r => r.1 ≠ sid) })

/-- `Tag.objects.get_or_create(user=auth_user, title=...)`: `get()` on the
exact (user, title) match; zero matches create a fresh row from the id
sequence; two or more matches raise `MultipleObjectsReturned` (untranslated
by DRF, hence `serverError`). Returns the (object, created) pair. -/
def getOrCreateTag (db : DB) (u : Nat) (title : String) :
    (Except ApiError (Tag × Bool)) × DB :=
  match db.tags.filter (fun t => t.user = u && t.title = title) with
  | [] =>
    let t : Tag := ⟨db.nextTagId, title, u⟩
    (.ok (t, true), { db with tags := db.tags ++ [t], nextTagId := db.nextTagId + 1 })
  | [t] => (.ok (t, false), db)
  | _ => (.error .serverError, db)

/-- `Course.objects.get_or_create(user=auth_user, title=...)`. -/
def getOrCreateCourse (db : DB) (u : Nat) (title : String) :
    (Except ApiError (Course × Bool)) × DB :=
  match db.courses.filter (fun t => t.user = u && t.title = title) with
  | [] =>
    let t : Course := ⟨db.nextCourseId, title, u⟩
    (.ok (t, true), { db with courses := db.courses ++ [t], nextCourseId := db.nextCourseId + 1 })
  | [t] => (.ok (t, false), db)
  | _ => (.error .serverError, db)

/-- `student.tags.add(tag_obj)`: Django M2M `add` inserts the association
row unless it is already present. -/
def addTagLink (db : DB) (sid tid : Nat) : DB :=
  if (sid, tid) ∈ db.studentTags then db
  else { db with studentTags := db.studentTags ++ [(sid, tid)] }

/-- `student.courses.add(course_obj)`. -/
def addCourseLink (db : DB) (sid cid : Nat) : DB :=
  if (sid, cid) ∈ db.studentCourses then db
  else { db with studentCourses := db.studentCourses ++ [(sid, cid)] }

/-- `StudentSerializer._get_or_create_tags`: for each descriptor title,
`get_or_create` then `add`; an exception aborts the loop, keeping the rows
written so far (no enclosing transaction rollback). -/
def gocTagsAttach (db : DB) (u : Nat) (titles : List String) (sid : Nat) :
    (Except ApiError Unit) × DB :=
  match titles with
  | [] => (.ok (), db)
  | title :: rest =>
    match getOrCreateTag db u title with
    | (.error e, db') => (.error e, db')
    | (.ok (t, _), db') => gocTagsAttach (addTagLink db' sid t.id) u rest sid

/-- `StudentSerializer._get_or_create_courses`. -/
def gocCoursesAttach (db : DB) (u : Nat) (titles : List String) (sid : Nat) :
    (Except ApiError Unit) × DB :=
  match titles with
  | [] => (.ok (), db)
  | title :: rest =>
    match getOrCreateCourse db u title with
    | (.error e, db') => (.error e, db')
    | (.ok (t, _), db') => gocCoursesAttach (addCourseLink db' sid t.id) u rest sid

/-- The validated body of a `POST /students` request: the required free-text
columns, the optional `link` (model default blank), and the two optional
descriptor lists, each a list of `{title}` values (`id` is read-only). -/
structure CreateData where
  name : String
  email : String
  address : String
  birthday : String
  link : String := ""
  tags : List String := []
  courses : List String := []
deriving DecidableEq, Repr

/-- `StudentSerializer.create` under `perform_create(serializer.save(user=
request.user))`: pop the descriptor lists, create the student row (image
null, owner the authenticated user), then resolve and attach both label
sets. -/
def createStudent (db : DB) (u : Nat) (d : CreateData) :
    (Except ApiError Student) × DB :=
  let s : Student :=
    ⟨db.nextStudentId, u, d.name, d.email, d.address, d.birthday, d.link, none⟩
  let db1 := { db with
    students := db.students ++ [s], nextStudentId := db.nextStudentId + 1 }
  match gocTagsAttach db1 u d.tags s.id with
  | (.error e, db2) => (.error e, db2)
  | (.ok _, db2) =>
    match gocCoursesAttach db2 u d.courses s.id with
    | (.error e, db3) => (.error e, db3)
    | (.ok _, db3) => (.ok s, db3)

/-- A raw update payload as the client may send it, before serializer
validation: any model column may be named, including ones that are not
serializer fields (`user`, `image`) or are read-only (`id`). -/
structure RawPayload where
  name : Option String := none
  email : Option String := none
  address : Option String := none
  birthday : Option String := none
  link : Option String := none
  user : Option Nat := none
  image : Option String := none
  id : Option Nat := none
  tags : Option (List String) := none
  courses : Option (List String) := none
deriving DecidableEq, Repr

/-- What survives serializer validation, per `StudentSerializer.Meta`:
`fields = [id, name, email, address, birthday, link, tags, courses]` with
`id` read-only, so `validated_data` can only hold the five writable text
columns and the two descriptor lists. -/
structure ValidatedData where
  name : Option String := none
  email : Option String := none
  address : Option String := none
  birthday : Option String := none
  link : Option String := none
  tags : Option (List String) := none
  courses : Option (List String) := none
deriving DecidableEq, Repr

/-- Serializer validation of an update payload: keys that are not writable
serializer fields (`user`, `image`, the read-only `id`) are dropped. -/
def toValidated (p : RawPayload) : ValidatedData :=
  { name := p.name, email := p.email, address := p.address,
    birthday := p.birthday, link := p.link, tags := p.tags, courses := p.courses }

/-- The `setattr` loop of `StudentSerializer.update` followed by
`instance.save()`: each key remaining in `validated_data` overwrites the
instance column; absent keys leave the column alone. -/
def applyAttrs (s : Student) (vd : ValidatedData) : Student :=
  { s with
    name := vd.name.getD s.name,
    email := vd.email.getD s.email,
    address := vd.address.getD s.address,
    birthday := vd.birthday.getD s.birthday,
    link := vd.link.getD s.link }

/-- `instance.save()`: write the row back under its primary key. -/
def saveStudent (db : DB) (s : Student) : DB :=
  { db with students := db.students.map (fun t => if t.id = s.id then s else t) }

/-- `instance.tags.clear()`: delete every Student–Tag association row of
this student (the tag rows themselves stay). -/
def clearTags (db : DB) (sid : Nat) : DB :=
  { db with studentTags := db.studentTags.filter (fun r => r.1 ≠ sid) }

/-- `instance.courses.clear()`. -/
def clearCourses (db : DB) (sid : Nat) : DB :=
  { db with studentCourses := db.studentCourses.filter (fun r => r.1 ≠ sid) }

/-- The `if tags is not None:` block of `StudentSerializer.update`: an
absent key does nothing; a present key clears the student's tag links and
re-resolves the descriptor list. -/
def tagsStep (db : DB) (u sid : Nat) : Option (List String) →
    (Except ApiError Unit) × DB
  | none => (.ok (), db)
  | some ts => gocTagsAttach (clearTags db sid) u ts sid

/-- The `if courses is not None:` block of `StudentSerializer.update`. -/
def coursesStep (db : DB) (u sid : Nat) : Option (List String) →
    (Except ApiError Unit) × DB
  | none => (.ok (), db)
  | some cs => gocCoursesAttach (clearCourses db sid) u cs sid

/-- `PATCH/PUT /students/{id}`: `get_object()` (404 on a miss), then
`StudentSerializer.update`: pop `tags`/`courses`; a present `tags` key
clears the student's tag links and re-resolves the list (`courses` alike);
then the `setattr` loop and `save()`. -/
def updateStudent (db : DB) (u : Nat) (sid : Nat) (p : RawPayload) :
    (Except ApiError Student) × DB :=
  match getObject db u sid with
  | none => (.error .notFound, db)
  | some inst =>
    match tagsStep db u sid (toValidated p).tags with
    | (.error e, db1) => (.error e, db1)
    | (.ok _, db1) =>
      match coursesStep db1 u sid (toValidated p).courses with
      | (.error e, db2) => (.error e, db2)
      | (.ok _, db2) =>
        (.ok (applyAttrs inst (toValidated p)),
         saveStudent db2 (applyAttrs inst (toValidated p)))

/-- DRF `get_object` for the tag detail routes (update/destroy): look the
pk up inside the owner-scoped tag queryset (`assigned_only` defaults to 0
on detail routes). -/
def getTagObject (db : DB) (u : Nat) (tid : Nat) : Option Tag :=
  (db.tags.filter (fun t => t.user = u)).find? (fun t => t.id = tid)

/-- `getTagObject` mirrored for courses. -/
def getCourseObject (db : DB) (u : Nat) (cid : Nat) : Option Course :=
  (db.courses.filter (fun t => t.user = u)).find? (fun t => t.id = cid)

/-- `PATCH /tags/{id}`: `TagSerializer` has `fields = [id, title]` with `id`
read-only, so only `title` is writable; an absent `title` leaves it alone. -/
def updateTag (db : DB) (u : Nat) (tid : Nat) (title : Option String) :
    (Except ApiError Tag) × DB :=
  match getTagObject db u tid with
  | none => (.error .notFound, db)
  | some t =>
    let t' := { t with title := title.getD t.title }
    (.ok t', { db with tags := db.tags.map (fun x => if x.id = tid then t' else x) })

/-- `PATCH /courses/{id}`. -/
def updateCourse (db : DB) (u : Nat) (cid : Nat) (title : Option String) :
    (Except ApiError Course) × DB :=
  match getCourseObject db u cid with
  | none => (.error .notFound, db)
  | some t =>
    let t' := { t with title := title.getD t.title }
    (.ok t', { db with courses := db.courses.map (fun x => if x.id = cid then t' else x) })

/-- `DELETE /tags/{id}`: remove the tag row; its through-table rows cascade. -/
def deleteTag (db : DB) (u : Nat) (tid : Nat) : (Except ApiError Unit) × DB :=
  match getTagObject db u tid with
  | none => (.error .notFound, db)
  | some _ =>
    (.ok (), { db with
      tags := db.tags.filter (fun t => t.id ≠ tid),
      studentTags := db.studentTags.filter (fun r => r.2 ≠ tid) })

/-- `DELETE /courses/{id}`. -/
def deleteCourse (db : DB) (u : Nat) (cid : Nat) : (Except ApiError Unit) × DB :=
  match getCourseObject db u cid with
  | none => (.error .notFound, db)
  | some _ =>
    (.ok (), { db with
      courses := db.courses.filter (fun t => t.id ≠ cid),
      studentCourses := db.studentCourses.filter (fun r => r.2 ≠ cid) })

/-- The three output projections of `student/serializers.py`:
`StudentSerializer` (compact), `StudentDetailSerializer`, and
`StudentImageSerializer`. -/
inductive SerializerKind where
  | student
  | studentDetail
  | studentImage
deriving DecidableEq, Repr

/-- The `Meta.fields` list of each serializer class, copied from the source
(`StudentDetailSerializer` extends the compact list with `['courses',
'image']`, repeating `courses`). -/
def serializerFields : SerializerKind → List String
  | .student => ["id", "name", "email", "address", "birthday", "link", "tags", "courses"]
  | .studentDetail =>
      ["id", "name", "email", "address", "birthday", "link", "tags", "courses",
       "courses", "image"]
  | .studentImage => ["id", "image"]

/-- `StudentViewSet.get_serializer_class`: `list` and the default both give
`StudentSerializer` (the class attribute `serializer_class` is
`StudentSerializer`), `upload_image` gives `StudentImageSerializer`;
`StudentDetailSerializer` is never selected. -/
def getSerializerClass (act : String) : SerializerKind :=
  if act = "list" then .student
  else if act = "upload_image" then .studentImage
  else .student

/-- Referential and key integrity of the store: primary keys are unique,
through-table rows are unique pairs referencing existing rows on both
sides. (Enforced by the relational schema; the Lean model states it as a
predicate.) -/
def WF (db : DB) : Prop :=
  (db.students.map (fun s => s.id)).Nodup ∧
  (db.tags.map (fun t => t.id)).Nodup ∧
  (db.courses.map (fun c => c.id)).Nodup ∧
  db.studentTags.Nodup ∧
  db.studentCourses.Nodup ∧
  (∀ r ∈ db.studentTags, (∃ s ∈ db.students, s.id = r.1) ∧ ∃ t ∈ db.tags, t.id = r.2) ∧
  (∀ r ∈ db.studentCourses, (∃ s ∈ db.students, s.id = r.1) ∧ ∃ c ∈ db.courses, c.id = r.2)

instance (db : DB) : Decidable (WF db) := by
  unfold WF
  infer_instance

/-! ### Concrete example data (used to instantiate the theorems) -/

/-- Owner 1's first student. -/
def exS1 : Student := ⟨1, 1, "n1", "e1", "a1", "b1", "", none⟩

/-- Owner 1's second student. -/
def exS2 : Student := ⟨2, 1, "n2", "e2", "a2", "b2", "", none⟩

/-- Owner 2's student. -/
def exS3 : Student := ⟨3, 2, "n3", "e3", "a3", "b3", "", none⟩

/-- Owner 1's tags and owner 2's tag. -/
def exT1 : Tag := ⟨1, "Thai", 1⟩

def exT2 : Tag := ⟨2, "Dinner", 1⟩

def exT3 : Tag := ⟨3, "Lunch", 1⟩

def exT4 : Tag := ⟨4, "Salad", 2⟩

def exC1 : Course := ⟨1, "Math", 1⟩

def exC2 : Course := ⟨2, "Chem", 1⟩

/-- A populated store: two owners, three students, several labels; tag 3
(owner 1's "Lunch") is attached only to owner 2's student, exercising the
global association-existence check of `assigned_only`. -/
def exDB : DB :=
  { students := [exS1, exS2, exS3],
    tags := [exT1, exT2, exT3, exT4],
    courses := [exC1, exC2],
    studentTags := [(1, 1), (1, 2), (2, 1), (3, 3)],
    studentCourses := [(1, 1)],
    nextStudentId := 4, nextTagId := 5, nextCourseId := 3 }

/-- A store for an owner with no labels yet (the §8 resolver scenario). -/
def exDB0 : DB :=
  { students := [exS1, exS2], tags := [], courses := [],
    studentTags := [], studentCourses := [],
    nextStudentId := 3, nextTagId := 1, nextCourseId := 1 }

/-- The store after resolving ["Thai", "Dinner"] for student 1 on `exDB0`. -/
def exDB1 : DB := (gocTagsAttach exDB0 1 ["Thai", "Dinner"] 1).2

/-- The store after then resolving ["Thai"] for student 2 on `exDB1`. -/
def exDB2 : DB := (gocTagsAttach exDB1 1 ["Thai"] 2).2

/-- The store after updating student 1 of `exDB` with `tags: []`. -/
def exDB3 : DB := (updateStudent exDB 1 1 { tags := some [] }).2

/-- A raw update payload that renames student 1 and also tries to hand the
student to owner 99 and to set an image. -/
def exPayload : RawPayload := { name := some "X", user := some 99, image := some "f.png" }

/-- The student row after applying `exPayload`'s writable fields. -/
def exS1X : Student := ⟨1, 1, "X", "e1", "a1", "b1", "", none⟩

/-- The store after updating student 1 of `exDB` with `exPayload`. -/
def exDB4 : DB := (updateStudent exDB 1 1 exPayload).2

/-! ### Generic list lemmas for the queryset pipeline -/

theorem mem_insortBy {α : Type} (le : α → α → Bool) (x a : α) (l : List α) :
    a ∈ insortBy le x l ↔ a = x ∨ a ∈ l := by
  induction l with
  | nil => simp [insortBy]
  | cons y ys ih =>
    simp only [insortBy]
    split
    · simp [List.mem_cons]
    · simp only [List.mem_cons, ih]
      tauto

theorem mem_sortedBy {α : Type} (le : α → α → Bool) (l : List α) (a : α) :
    a ∈ sortedBy le l ↔ a ∈ l := by
  induction l with
  | nil => simp [sortedBy]
  | cons y ys ih =>
    show a ∈ insortBy le y (sortedBy le ys) ↔ _
    rw [mem_insortBy, ih]
    simp [List.mem_cons]

theorem pairwise_insortBy {α : Type} (le : α → α → Bool)
    (htot : ∀ a b, le a b = true ∨ le b a = true)
    (htrans : ∀ a b c, le a b = true → le b c = true → le a c = true)
    (x : α) (l : List α) (hl : l.Pairwise (fun a b => le a b = true)) :
    (insortBy le x l).Pairwise (fun a b => le a b = true) := by
  induction l with
  | nil => simp [insortBy]
  | cons y ys ih =>
    rcases List.pairwise_cons.mp hl with ⟨hy, hys⟩
    simp only [insortBy]
    split
    · rename_i hxy
      refine List.pairwise_cons.mpr ⟨?_, hl⟩
      intro b hb
      rcases List.mem_cons.mp hb with rfl | hb
      · exact hxy
      · exact htrans x y b hxy (hy b hb)
    · rename_i hxy
      refine List.pairwise_cons.mpr ⟨?_, ih hys⟩
      intro b hb
      rcases (mem_insortBy le x b ys).mp hb with rfl | hb
      · rcases htot b y with h | h
        · exact absurd h hxy
        · exact h
      · exact hy b hb

theorem pairwise_sortedBy {α : Type} (le : α → α → Bool)
    (htot : ∀ a b, le a b = true ∨ le b a = true)
    (htrans : ∀ a b c, le a b = true → le b c = true → le a c = true)
    (l : List α) : (sortedBy le l).Pairwise (fun a b => le a b = true) := by
  induction l with
  | nil => simp [sortedBy]
  | cons y ys ih => exact pairwise_insortBy le htot htrans y _ ih

/-- Membership in the shared tail of all three queryset pipelines:
`filter(user=...)`, `order_by(...)`, `distinct()`. -/
theorem mem_pipeline {α : Type} [DecidableEq α] (le : α → α → Bool)
    (p : α → Bool) (l : List α) (a : α) :
    a ∈ (sortedBy le (l.filter p)).dedup ↔ a ∈ l ∧ p a = true := by
  rw [List.mem_dedup, mem_sortedBy, List.mem_filter]

theorem pairwise_pipeline {α : Type} [DecidableEq α] (le : α → α → Bool)
    (htot : ∀ a b, le a b = true ∨ le b a = true)
    (htrans : ∀ a b c, le a b = true → le b c = true → le a c = true)
    (p : α → Bool) (l : List α) :
    ((sortedBy le (l.filter p)).dedup).Pairwise (fun a b => le a b = true) :=
  List.Pairwise.sublist (List.dedup_sublist _) (pairwise_sortedBy le htot htrans _)

theorem mem_tagFilterRows (db : DB) (ids : List Int) (rows : List Student)
    (s : Student) :
    s ∈ tagFilterRows db ids rows ↔
      s ∈ rows ∧ ∃ r ∈ db.studentTags, r.1 = s.id ∧ (r.2 : Int) ∈ ids := by
  unfold tagFilterRows
  simp only [List.mem_flatMap, List.mem_map, List.mem_filter, Bool.and_eq_true,
    decide_eq_true_eq]
  constructor
  · rintro ⟨a, ha, r, ⟨hr, h1, h2⟩, rfl⟩
    exact ⟨ha, r, hr, h1, h2⟩
  · rintro ⟨ha, r, hr, h1, h2⟩
    exact ⟨s, ha, r, ⟨hr, h1, h2⟩, rfl⟩

theorem mem_courseFilterRows (db : DB) (ids : List Int) (rows : List Student)
    (s : Student) :
    s ∈ courseFilterRows db ids rows ↔
      s ∈ rows ∧ ∃ r ∈ db.studentCourses, r.1 = s.id ∧ (r.2 : Int) ∈ ids := by
  unfold courseFilterRows
  simp only [List.mem_flatMap, List.mem_map, List.mem_filter, Bool.and_eq_true,
    decide_eq_true_eq]
  constructor
  · rintro ⟨a, ha, r, ⟨hr, h1, h2⟩, rfl⟩
    exact ⟨ha, r, hr, h1, h2⟩
  · rintro ⟨ha, r, hr, h1, h2⟩
    exact ⟨s, ha, r, ⟨hr, h1, h2⟩, rfl⟩

theorem mem_assignedTagRows (db : DB) (rows : List Tag) (t : Tag) :
    t ∈ assignedTagRows db rows ↔
      t ∈ rows ∧ ∃ r ∈ db.studentTags, r.2 = t.id := by
  unfold assignedTagRows
  simp only [List.mem_flatMap, List.mem_map, List.mem_filter, decide_eq_true_eq]
  constructor
  · rintro ⟨a, ha, r, ⟨hr, h1⟩, rfl⟩
    exact ⟨ha, r, hr, h1⟩
  · rintro ⟨ha, r, hr, h1⟩
    exact ⟨t, ha, r, ⟨hr, h1⟩, rfl⟩

theorem mem_assignedCourseRows (db : DB) (rows : List Course) (t : Course) :
    t ∈ assignedCourseRows db rows ↔
      t ∈ rows ∧ ∃ r ∈ db.studentCourses, r.2 = t.id := by
  unfold assignedCourseRows
  simp only [List.mem_flatMap, List.mem_map, List.mem_filter, decide_eq_true_eq]
  constructor
  · rintro ⟨a, ha, r, ⟨hr, h1⟩, rfl⟩
    exact ⟨ha, r, hr, h1⟩
  · rintro ⟨ha, r, hr, h1⟩
    exact ⟨t, ha, r, ⟨hr, h1⟩, rfl⟩

/-- An element of a list is determined by its image under `f` when the
mapped list has no duplicates. -/
theorem eq_of_map_nodup {α β : Type} {f : α → β} {l : List α}
    (hnd : (l.map f).Nodup) {x y : α} (hx : x ∈ l) (hy : y ∈ l)
    (hf : f x = f y) : x = y :=
  List.inj_on_of_nodup_map hnd hx hy hf

theorem getObject_eq_none (db : DB) (u : Nat) (s : Student)
    (hs : s ∈ db.students) (hu : s.user ≠ u)
    (hnd : (db.students.map (fun x => x.id)).Nodup) :
    getObject db u s.id = none := by
  unfold getObject
  rw [List.find?_eq_none]
  intro x hx
  rcases List.mem_filter.mp hx with ⟨hxmem, hxu⟩
  simp only [decide_eq_true_eq] at hxu ⊢
  intro hid
  have hsx : s = x := eq_of_map_nodup hnd hs hxmem (by simpa using hid.symm)
  exact hu (hsx.symm ▸ hxu)

theorem getTagObject_eq_none (db : DB) (u : Nat) (t : Tag)
    (ht : t ∈ db.tags) (hu : t.user ≠ u)
    (hnd : (db.tags.map (fun x => x.id)).Nodup) :
    getTagObject db u t.id = none := by
  unfold getTagObject
  rw [List.find?_eq_none]
  intro x hx
  rcases List.mem_filter.mp hx with ⟨hxmem, hxu⟩
  simp only [decide_eq_true_eq] at hxu ⊢
  intro hid
  have htx : t = x := eq_of_map_nodup hnd ht hxmem (by simpa using hid.symm)
  exact hu (htx.symm ▸ hxu)

theorem getCourseObject_eq_none (db : DB) (u : Nat) (c : Course)
    (hc : c ∈ db.courses) (hu : c.user ≠ u)
    (hnd : (db.courses.map (fun x => x.id)).Nodup) :
    getCourseObject db u c.id = none := by
  unfold getCourseObject
  rw [List.find?_eq_none]
  intro x hx
  rcases List.mem_filter.mp hx with ⟨hxmem, hxu⟩
  simp only [decide_eq_true_eq] at hxu ⊢
  intro hid
  have hcx : c = x := eq_of_map_nodup hnd hc hxmem (by simpa using hid.symm)
  exact hu (hcx.symm ▸ hxu)

/-! ### Lemmas about the association primitives -/

theorem addTagLink_students (db : DB) (sid tid : Nat) :
    (addTagLink db sid tid).students = db.students := by
  unfold addTagLink; split <;> rfl

theorem addTagLink_tags (db : DB) (sid tid : Nat) :
    (addTagLink db sid tid).tags = db.tags := by
  unfold addTagLink; split <;> rfl

theorem addTagLink_courses (db : DB) (sid tid : Nat) :
    (addTagLink db sid tid).courses = db.courses := by
  unfold addTagLink; split <;> rfl

theorem addTagLink_studentCourses (db : DB) (sid tid : Nat) :
    (addTagLink db sid tid).studentCourses = db.studentCourses := by
  unfold addTagLink; split <;> rfl

theorem addTagLink_nextStudentId (db : DB) (sid tid : Nat) :
    (addTagLink db sid tid).nextStudentId = db.nextStudentId := by
  unfold addTagLink; split <;> rfl

theorem mem_addTagLink_st (db : DB) (sid tid : Nat) (r : Nat × Nat) :
    r ∈ (addTagLink db sid tid).studentTags ↔
      r ∈ db.studentTags ∨ r = (sid, tid) := by
  unfold addTagLink
  split
  · rename_i h
    constructor
    · exact Or.inl
    · rintro (hr | rfl)
      · exact hr
      · exact h
  · simp [List.mem_append]

theorem addCourseLink_students (db : DB) (sid cid : Nat) :
    (addCourseLink db sid cid).students = db.students := by
  unfold addCourseLink; split <;> rfl

theorem addCourseLink_courses (db : DB) (sid cid : Nat) :
    (addCourseLink db sid cid).courses = db.courses := by
  unfold addCourseLink; split <;> rfl

theorem addCourseLink_tags (db : DB) (sid cid : Nat) :
    (addCourseLink db sid cid).tags = db.tags := by
  unfold addCourseLink; split <;> rfl

theorem addCourseLink_studentTags (db : DB) (sid cid : Nat) :
    (addCourseLink db sid cid).studentTags = db.studentTags := by
  unfold addCourseLink; split <;> rfl

theorem addCourseLink_nextStudentId (db : DB) (sid cid : Nat) :
    (addCourseLink db sid cid).nextStudentId = db.nextStudentId := by
  unfold addCourseLink; split <;> rfl

theorem mem_addCourseLink_sc (db : DB) (sid cid : Nat) (r : Nat × Nat) :
    r ∈ (addCourseLink db sid cid).studentCourses ↔
      r ∈ db.studentCourses ∨ r = (sid, cid) := by
  unfold addCourseLink
  split
  · rename_i h
    constructor
    · exact Or.inl
    · rintro (hr | rfl)
      · exact hr
      · exact h
  · simp [List.mem_append]

/-- Everything `_get_or_create_tags` guarantees for a successful run: the
other tables are untouched, tags only get appended and every appended tag
is owned by the requester with a title from the descriptor list, existing
association rows survive, new association rows all belong to the given
student, and, for the given student, the attached tag ids after the run
are exactly the old ones plus the ids of this owner's tags carrying one of
the descriptor titles. -/
theorem gocTagsAttach_spec (u sid : Nat) (titles : List String) :
    ∀ db db' : DB, gocTagsAttach db u titles sid = (Except.ok (), db') →
      db'.students = db.students ∧
      db'.courses = db.courses ∧
      db'.studentCourses = db.studentCourses ∧
      db'.nextStudentId = db.nextStudentId ∧
      (∃ extra, db'.tags = db.tags ++ extra ∧
        ∀ t ∈ extra, t.user = u ∧ t.title ∈ titles) ∧
      (∀ r ∈ db.studentTags, r ∈ db'.studentTags) ∧
      (∀ r ∈ db'.studentTags, r ∈ db.studentTags ∨ r.1 = sid) ∧
      (∀ tid : Nat, (sid, tid) ∈ db'.studentTags ↔
        (sid, tid) ∈ db.studentTags ∨
        ∃ t ∈ db'.tags, t.id = tid ∧ t.user = u ∧ t.title ∈ titles) := by
  induction titles with
  | nil =>
    intro db db' h
    simp only [gocTagsAttach, Prod.mk.injEq] at h
    obtain ⟨-, rfl⟩ := h
    refine ⟨rfl, rfl, rfl, rfl, ⟨[], by simp, by simp⟩,
      fun r hr => hr, fun r hr => Or.inl hr, ?_⟩
    intro tid
    simp
  | cons title rest ih =>
    intro db db' h
    simp only [gocTagsAttach] at h
    split at h
    · simp at h
    · rename_i t created dbx heq
      unfold getOrCreateTag at heq
      split at heq
      · -- no existing match: a fresh tag is created and attached
        rename_i hf
        simp only [Prod.mk.injEq, Except.ok.injEq] at heq
        obtain ⟨⟨ht, -⟩, hdbx⟩ := heq
        subst ht
        subst hdbx
        have hnone : ∀ x ∈ db.tags, ¬(x.user = u ∧ x.title = title) := by
          intro x hx hpx
          have : x ∈ db.tags.filter (fun t => t.user = u && t.title = title) :=
            List.mem_filter.mpr ⟨hx, by simp [hpx.1, hpx.2]⟩
          rw [hf] at this
          simp at this
        obtain ⟨hstu, hcrs, hsc, hnsi, ⟨extra, htags, hextra⟩, hmono, honly, hiff⟩ :=
          ih _ db' h
        set tnew : Tag := ⟨db.nextTagId, title, u⟩ with htnew
        set dbC : DB :=
          { db with tags := db.tags ++ [tnew], nextTagId := db.nextTagId + 1 } with hdbC
        have hCst : ∀ r, r ∈ (addTagLink dbC sid tnew.id).studentTags ↔
            r ∈ db.studentTags ∨ r = (sid, tnew.id) := fun r =>
          mem_addTagLink_st dbC sid tnew.id r
        refine ⟨by rw [hstu, addTagLink_students], by rw [hcrs, addTagLink_courses],
          by rw [hsc, addTagLink_studentCourses],
          by rw [hnsi, addTagLink_nextStudentId], ?_, ?_, ?_, ?_⟩
        · refine ⟨tnew :: extra, ?_, ?_⟩
          · rw [htags, addTagLink_tags]
            show (db.tags ++ [tnew]) ++ extra = db.tags ++ (tnew :: extra)
            simp
          · intro x hx
            rcases List.mem_cons.mp hx with hx1 | hx1
            · subst hx1
              exact ⟨rfl, List.mem_cons_self _ _⟩
            · exact ⟨(hextra x hx1).1, List.mem_cons_of_mem _ (hextra x hx1).2⟩
        · intro r hr
          exact hmono r ((hCst r).mpr (Or.inl hr))
        · intro r hr
          rcases honly r hr with hr1 | hr1
          · rcases (hCst r).mp hr1 with hr2 | rfl
            · exact Or.inl hr2
            · exact Or.inr rfl
          · exact Or.inr hr1
        · intro tid
          rw [hiff tid]
          constructor
          · rintro (h1 | ⟨x, hxmem, hxid, hxu, hxtl⟩)
            · rcases (hCst _).mp h1 with h2 | h2
              · exact Or.inl h2
              · right
                refine ⟨tnew, ?_, ?_, rfl, List.mem_cons_self _ _⟩
                · rw [htags, addTagLink_tags]
                  exact List.mem_append_left _ (List.mem_append_right _ (by simp))
                · have := (Prod.mk.injEq sid tid sid tnew.id).mp h2
                  exact this.2.symm
            · exact Or.inr ⟨x, hxmem, hxid, hxu, List.mem_cons_of_mem _ hxtl⟩
          · rintro (h1 | ⟨x, hxmem, hxid, hxu, hxtl⟩)
            · exact Or.inl ((hCst _).mpr (Or.inl h1))
            · have hxsplit : x ∈ db.tags ∨ x = tnew ∨ x ∈ extra := by
                rw [htags, addTagLink_tags] at hxmem
                rcases List.mem_append.mp hxmem with hx | hx
                · rcases List.mem_append.mp hx with hx | hx
                  · exact Or.inl hx
                  · exact Or.inr (Or.inl (by simpa using hx))
                · exact Or.inr (Or.inr hx)
              rcases hxsplit with hx | rfl | hx
              · rcases List.mem_cons.mp hxtl with hxt | hxt
                · exact absurd ⟨hxu, hxt⟩ (hnone x hx)
                · exact Or.inr ⟨x, hxmem, hxid, hxu, hxt⟩
              · left
                refine (hCst _).mpr (Or.inr ?_)
                rw [← hxid]
              · rcases List.mem_cons.mp hxtl with hxt | hxt
                · exact Or.inr ⟨x, hxmem, hxid, hxu, (hextra x hx).2⟩
                · exact Or.inr ⟨x, hxmem, hxid, hxu, hxt⟩
      · -- exactly one existing match: it is reused and attached
        rename_i t0 hf
        simp only [Prod.mk.injEq, Except.ok.injEq] at heq
        obtain ⟨⟨ht, -⟩, hdbx⟩ := heq
        subst ht
        subst hdbx
        have ht0f : t0 ∈ db.tags.filter (fun t => t.user = u && t.title = title) := by
          rw [hf]; simp
        have ht0mem : t0 ∈ db.tags := (List.mem_filter.mp ht0f).1
        have ht0p : t0.user = u ∧ t0.title = title := by
          have := (List.mem_filter.mp ht0f).2
          simpa using this
        have huniq : ∀ x ∈ db.tags, x.user = u → x.title = title → x = t0 := by
          intro x hx hxu hxt
          have : x ∈ db.tags.filter (fun t => t.user = u && t.title = title) :=
            List.mem_filter.mpr ⟨hx, by simp [hxu, hxt]⟩
          rw [hf] at this
          simpa using this
        obtain ⟨hstu, hcrs, hsc, hnsi, ⟨extra, htags, hextra⟩, hmono, honly, hiff⟩ :=
          ih _ db' h
        have hCst : ∀ r, r ∈ (addTagLink db sid t0.id).studentTags ↔
            r ∈ db.studentTags ∨ r = (sid, t0.id) := fun r =>
          mem_addTagLink_st db sid t0.id r
        refine ⟨by rw [hstu, addTagLink_students], by rw [hcrs, addTagLink_courses],
          by rw [hsc, addTagLink_studentCourses],
          by rw [hnsi, addTagLink_nextStudentId], ?_, ?_, ?_, ?_⟩
        · refine ⟨extra, ?_, ?_⟩
          · rw [htags, addTagLink_tags]
          · intro x hx
            exact ⟨(hextra x hx).1, List.mem_cons_of_mem _ (hextra x hx).2⟩
        · intro r hr
          exact hmono r ((hCst r).mpr (Or.inl hr))
        · intro r hr
          rcases honly r hr with hr1 | hr1
          · rcases (hCst r).mp hr1 with hr2 | rfl
            · exact Or.inl hr2
            · exact Or.inr rfl
          · exact Or.inr hr1
        · intro tid
          rw [hiff tid]
          constructor
          · rintro (h1 | ⟨x, hxmem, hxid, hxu, hxtl⟩)
            · rcases (hCst _).mp h1 with h2 | h2
              · exact Or.inl h2
              · right
                refine ⟨t0, ?_, ?_, ht0p.1, by rw [ht0p.2]; exact List.mem_cons_self _ _⟩
                · rw [htags, addTagLink_tags]
                  exact List.mem_append_left _ ht0mem
                · have := (Prod.mk.injEq sid tid sid t0.id).mp h2
                  exact this.2.symm
            · exact Or.inr ⟨x, hxmem, hxid, hxu, List.mem_cons_of_mem _ hxtl⟩
          · rintro (h1 | ⟨x, hxmem, hxid, hxu, hxtl⟩)
            · exact Or.inl ((hCst _).mpr (Or.inl h1))
            · have hxsplit : x ∈ db.tags ∨ x ∈ extra := by
                rw [htags, addTagLink_tags] at hxmem
                exact List.mem_append.mp hxmem
              rcases hxsplit with hx | hx
              · rcases List.mem_cons.mp hxtl with hxt | hxt
                · have : x = t0 := huniq x hx hxu hxt
                  subst this
                  left
                  refine (hCst _).mpr (Or.inr ?_)
                  rw [← hxid]
                · exact Or.inr ⟨x, hxmem, hxid, hxu, hxt⟩
              · exact Or.inr ⟨x, hxmem, hxid, hxu, (hextra x hx).2⟩
      · -- two or more matches: `get()` raises, contradicting the ok run
        simp at heq

/-- `gocTagsAttach_spec` mirrored for `_get_or_create_courses`. -/
theorem gocCoursesAttach_spec (u sid : Nat) (titles : List String) :
    ∀ db db' : DB, gocCoursesAttach db u titles sid = (Except.ok (), db') →
      db'.students = db.students ∧
      db'.tags = db.tags ∧
      db'.studentTags = db.studentTags ∧
      db'.nextStudentId = db.nextStudentId ∧
      (∃ extra, db'.courses = db.courses ++ extra ∧
        ∀ t ∈ extra, t.user = u ∧ t.title ∈ titles) ∧
      (∀ r ∈ db.studentCourses, r ∈ db'.studentCourses) ∧
      (∀ r ∈ db'.studentCourses, r ∈ db.studentCourses ∨ r.1 = sid) ∧
      (∀ cid : Nat, (sid, cid) ∈ db'.studentCourses ↔
        (sid, cid) ∈ db.studentCourses ∨
        ∃ t ∈ db'.courses, t.id = cid ∧ t.user = u ∧ t.title ∈ titles) := by
  induction titles with
  | nil =>
    intro db db' h
    simp only [gocCoursesAttach, Prod.mk.injEq] at h
    obtain ⟨-, rfl⟩ := h
    refine ⟨rfl, rfl, rfl, rfl, ⟨[], by simp, by simp⟩,
      fun r hr => hr, fun r hr => Or.inl hr, ?_⟩
    intro cid
    simp
  | cons title rest ih =>
    intro db db' h
    simp only [gocCoursesAttach] at h
    split at h
    · simp at h
    · rename_i t created dbx heq
      unfold getOrCreateCourse at heq
      split at heq
      · -- no existing match: a fresh course is created and attached
        rename_i hf
        simp only [Prod.mk.injEq, Except.ok.injEq] at heq
        obtain ⟨⟨ht, -⟩, hdbx⟩ := heq
        subst ht
        subst hdbx
        have hnone : ∀ x ∈ db.courses, ¬(x.user = u ∧ x.title = title) := by
          intro x hx hpx
          have : x ∈ db.courses.filter (fun t => t.user = u && t.title = title) :=
            List.mem_filter.mpr ⟨hx, by simp [hpx.1, hpx.2]⟩
          rw [hf] at this
          simp at this
        obtain ⟨hstu, htg, hst, hnsi, ⟨extra, hcrs, hextra⟩, hmono, honly, hiff⟩ :=
          ih _ db' h
        set tnew : Course := ⟨db.nextCourseId, title, u⟩ with htnew
        set dbC : DB :=
          { db with courses := db.courses ++ [tnew],
                    nextCourseId := db.nextCourseId + 1 } with hdbC
        have hCst : ∀ r, r ∈ (addCourseLink dbC sid tnew.id).studentCourses ↔
            r ∈ db.studentCourses ∨ r = (sid, tnew.id) := fun r =>
          mem_addCourseLink_sc dbC sid tnew.id r
        refine ⟨by rw [hstu, addCourseLink_students], by rw [htg, addCourseLink_tags],
          by rw [hst, addCourseLink_studentTags],
          by rw [hnsi, addCourseLink_nextStudentId], ?_, ?_, ?_, ?_⟩
        · refine ⟨tnew :: extra, ?_, ?_⟩
          · rw [hcrs, addCourseLink_courses]
            show (db.courses ++ [tnew]) ++ extra = db.courses ++ (tnew :: extra)
            simp
          · intro x hx
            rcases List.mem_cons.mp hx with hx1 | hx1
            · subst hx1
              exact ⟨rfl, List.mem_cons_self _ _⟩
            · exact ⟨(hextra x hx1).1, List.mem_cons_of_mem _ (hextra x hx1).2⟩
        · intro r hr
          exact hmono r ((hCst r).mpr (Or.inl hr))
        · intro r hr
          rcases honly r hr with hr1 | hr1
          · rcases (hCst r).mp hr1 with hr2 | rfl
            · exact Or.inl hr2
            · exact Or.inr rfl
          · exact Or.inr hr1
        · intro cid
          rw [hiff cid]
          constructor
          · rintro (h1 | ⟨x, hxmem, hxid, hxu, hxtl⟩)
            · rcases (hCst _).mp h1 with h2 | h2
              · exact Or.inl h2
              · right
                refine ⟨tnew, ?_, ?_, rfl, List.mem_cons_self _ _⟩
                · rw [hcrs, addCourseLink_courses]
                  exact List.mem_append_left _ (List.mem_append_right _ (by simp))
                · have := (Prod.mk.injEq sid cid sid tnew.id).mp h2
                  exact this.2.symm
            · exact Or.inr ⟨x, hxmem, hxid, hxu, List.mem_cons_of_mem _ hxtl⟩
          · rintro (h1 | ⟨x, hxmem, hxid, hxu, hxtl⟩)
            · exact Or.inl ((hCst _).mpr (Or.inl h1))
            · have hxsplit : x ∈ db.courses ∨ x = tnew ∨ x ∈ extra := by
                rw [hcrs, addCourseLink_courses] at hxmem
                rcases List.mem_append.mp hxmem with hx | hx
                · rcases List.mem_append.mp hx with hx | hx
                  · exact Or.inl hx
                  · exact Or.inr (Or.inl (by simpa using hx))
                · exact Or.inr (Or.inr hx)
              rcases hxsplit with hx | rfl | hx
              · rcases List.mem_cons.mp hxtl with hxt | hxt
                · exact absurd ⟨hxu, hxt⟩ (hnone x hx)
                · exact Or.inr ⟨x, hxmem, hxid, hxu, hxt⟩
              · left
                refine (hCst _).mpr (Or.inr ?_)
                rw [← hxid]
              · rcases List.mem_cons.mp hxtl with hxt | hxt
                · exact Or.inr ⟨x, hxmem, hxid, hxu, (hextra x hx).2⟩
                · exact Or.inr ⟨x, hxmem, hxid, hxu, hxt⟩
      · -- exactly one existing match: it is reused and attached
        rename_i t0 hf
        simp only [Prod.mk.injEq, Except.ok.injEq] at heq
        obtain ⟨⟨ht, -⟩, hdbx⟩ := heq
        subst ht
        subst hdbx
        have ht0f : t0 ∈ db.courses.filter (fun t => t.user = u && t.title = title) := by
          rw [hf]; simp
        have ht0mem : t0 ∈ db.courses := (List.mem_filter.mp ht0f).1
        have ht0p : t0.user = u ∧ t0.title = title := by
          have := (List.mem_filter.mp ht0f).2
          simpa using this
        have huniq : ∀ x ∈ db.courses, x.user = u → x.title = title → x = t0 := by
          intro x hx hxu hxt
          have : x ∈ db.courses.filter (fun t => t.user = u && t.title = title) :=
            List.mem_filter.mpr ⟨hx, by simp [hxu, hxt]⟩
          rw [hf] at this
          simpa using this
        obtain ⟨hstu, htg, hst, hnsi, ⟨extra, hcrs, hextra⟩, hmono, honly, hiff⟩ :=
          ih _ db' h
        have hCst : ∀ r, r ∈ (addCourseLink db sid t0.id).studentCourses ↔
            r ∈ db.studentCourses ∨ r = (sid, t0.id) := fun r =>
          mem_addCourseLink_sc db sid t0.id r
        refine ⟨by rw [hstu, addCourseLink_students], by rw [htg, addCourseLink_tags],
          by rw [hst, addCourseLink_studentTags],
          by rw [hnsi, addCourseLink_nextStudentId], ?_, ?_, ?_, ?_⟩
        · refine ⟨extra, ?_, ?_⟩
          · rw [hcrs, addCourseLink_courses]
          · intro x hx
            exact ⟨(hextra x hx).1, List.mem_cons_of_mem _ (hextra x hx).2⟩
        · intro r hr
          exact hmono r ((hCst r).mpr (Or.inl hr))
        · intro r hr
          rcases honly r hr with hr1 | hr1
          · rcases (hCst r).mp hr1 with hr2 | rfl
            · exact Or.inl hr2
            · exact Or.inr rfl
          · exact Or.inr hr1
        · intro cid
          rw [hiff cid]
          constructor
          · rintro (h1 | ⟨x, hxmem, hxid, hxu, hxtl⟩)
            · rcases (hCst _).mp h1 with h2 | h2
              · exact Or.inl h2
              · right
                refine ⟨t0, ?_, ?_, ht0p.1, by rw [ht0p.2]; exact List.mem_cons_self _ _⟩
                · rw [hcrs, addCourseLink_courses]
                  exact List.mem_append_left _ ht0mem
                · have := (Prod.mk.injEq sid cid sid t0.id).mp h2
                  exact this.2.symm
            · exact Or.inr ⟨x, hxmem, hxid, hxu, List.mem_cons_of_mem _ hxtl⟩
          · rintro (h1 | ⟨x, hxmem, hxid, hxu, hxtl⟩)
            · exact Or.inl ((hCst _).mpr (Or.inl h1))
            · have hxsplit : x ∈ db.courses ∨ x ∈ extra := by
                rw [hcrs, addCourseLink_courses] at hxmem
                exact List.mem_append.mp hxmem
              rcases hxsplit with hx | hx
              · rcases List.mem_cons.mp hxtl with hxt | hxt
                · have : x = t0 := huniq x hx hxu hxt
                  subst this
                  left
                  refine (hCst _).mpr (Or.inr ?_)
                  rw [← hxid]
                · exact Or.inr ⟨x, hxmem, hxid, hxu, hxt⟩
              · exact Or.inr ⟨x, hxmem, hxid, hxu, (hextra x hx).2⟩
      · -- two or more matches: `get()` raises, contradicting the ok run
        simp at heq

/-! ### Lemmas about clear and save -/

theorem mem_clearTags_st (db : DB) (sid : Nat) (r : Nat × Nat) :
    r ∈ (clearTags db sid).studentTags ↔ r ∈ db.studentTags ∧ r.1 ≠ sid := by
  unfold clearTags
  simp [List.mem_filter]

theorem clearTags_students (db : DB) (sid : Nat) :
    (clearTags db sid).students = db.students := rfl

theorem clearTags_tags (db : DB) (sid : Nat) :
    (clearTags db sid).tags = db.tags := rfl

theorem clearTags_courses (db : DB) (sid : Nat) :
    (clearTags db sid).courses = db.courses := rfl

theorem clearTags_studentCourses (db : DB) (sid : Nat) :
    (clearTags db sid).studentCourses = db.studentCourses := rfl

theorem mem_clearCourses_sc (db : DB) (sid : Nat) (r : Nat × Nat) :
    r ∈ (clearCourses db sid).studentCourses ↔ r ∈ db.studentCourses ∧ r.1 ≠ sid := by
  unfold clearCourses
  simp [List.mem_filter]

theorem clearCourses_students (db : DB) (sid : Nat) :
    (clearCourses db sid).students = db.students := rfl

theorem clearCourses_tags (db : DB) (sid : Nat) :
    (clearCourses db sid).tags = db.tags := rfl

theorem clearCourses_courses (db : DB) (sid : Nat) :
    (clearCourses db sid).courses = db.courses := rfl

theorem clearCourses_studentTags (db : DB) (sid : Nat) :
    (clearCourses db sid).studentTags = db.studentTags := rfl

theorem saveStudent_tags (db : DB) (s : Student) :
    (saveStudent db s).tags = db.tags := rfl

theorem saveStudent_courses (db : DB) (s : Student) :
    (saveStudent db s).courses = db.courses := rfl

theorem saveStudent_studentTags (db : DB) (s : Student) :
    (saveStudent db s).studentTags = db.studentTags := rfl

theorem saveStudent_studentCourses (db : DB) (s : Student) :
    (saveStudent db s).studentCourses = db.studentCourses := rfl

/-- What a successful tags step of `StudentSerializer.update` guarantees:
everything outside the Tag table and the Student–Tag links is untouched,
existing tag rows survive, an absent key changes nothing, and a present
key makes the student's attached tag ids exactly the ids of this owner's
tags carrying one of the descriptor titles, while other students' links
are untouched. -/
theorem tagsStep_spec (db : DB) (u sid : Nat) (o : Option (List String)) (db1 : DB)
    (h : tagsStep db u sid o = (Except.ok (), db1)) :
    db1.students = db.students ∧
    db1.courses = db.courses ∧
    db1.studentCourses = db.studentCourses ∧
    db1.nextStudentId = db.nextStudentId ∧
    (∀ t ∈ db.tags, t ∈ db1.tags) ∧
    (∀ r : Nat × Nat, r.1 ≠ sid → (r ∈ db1.studentTags ↔ r ∈ db.studentTags)) ∧
    (o = none → db1 = db) ∧
    (∀ ts, o = some ts →
      (∃ extra, db1.tags = db.tags ++ extra ∧ ∀ t ∈ extra, t.user = u ∧ t.title ∈ ts) ∧
      (∀ tid : Nat, (sid, tid) ∈ db1.studentTags ↔
        ∃ t ∈ db1.tags, t.id = tid ∧ t.user = u ∧ t.title ∈ ts)) := by
  cases o with
  | none =>
    simp only [tagsStep, Prod.mk.injEq] at h
    obtain ⟨-, rfl⟩ := h
    exact ⟨rfl, rfl, rfl, rfl, fun t ht => ht, fun r _ => Iff.rfl,
      fun _ => rfl, fun ts hts => Option.noConfusion hts⟩
  | some ts =>
    simp only [tagsStep] at h
    obtain ⟨hstu, hcrs, hsc, hnsi, ⟨extra, htags, hextra⟩, hmono, honly, hiff⟩ :=
      gocTagsAttach_spec u sid ts _ db1 h
    have hclr : ∀ r : Nat × Nat, r ∈ (clearTags db sid).studentTags ↔
        r ∈ db.studentTags ∧ r.1 ≠ sid := mem_clearTags_st db sid
    refine ⟨by rw [hstu]; rfl, by rw [hcrs]; rfl, by rw [hsc]; rfl,
      by rw [hnsi]; rfl, ?_, ?_, fun hn => Option.noConfusion hn, ?_⟩
    · intro t ht
      have : t ∈ (clearTags db sid).tags := ht
      rw [htags]
      exact List.mem_append_left _ this
    · intro r hr
      constructor
      · intro hmem
        rcases honly r hmem with h1 | h1
        · exact ((hclr r).mp h1).1
        · exact absurd h1 hr
      · intro hmem
        exact hmono r ((hclr r).mpr ⟨hmem, hr⟩)
    · rintro ts' hts'
      obtain rfl : ts = ts' := by injection hts'
      constructor
      · exact ⟨extra, by rw [htags]; rfl, hextra⟩
      · intro tid
        rw [hiff tid]
        constructor
        · rintro (h1 | h1)
          · exact absurd ((hclr _).mp h1).2 (by simp)
          · exact h1
        · intro h1
          exact Or.inr h1

/-- `tagsStep_spec` mirrored for the courses step. -/
theorem coursesStep_spec (db : DB) (u sid : Nat) (o : Option (List String)) (db1 : DB)
    (h : coursesStep db u sid o = (Except.ok (), db1)) :
    db1.students = db.students ∧
    db1.tags = db.tags ∧
    db1.studentTags = db.studentTags ∧
    db1.nextStudentId = db.nextStudentId ∧
    (∀ c ∈ db.courses, c ∈ db1.courses) ∧
    (∀ r : Nat × Nat, r.1 ≠ sid → (r ∈ db1.studentCourses ↔ r ∈ db.studentCourses)) ∧
    (o = none → db1 = db) ∧
    (∀ cs, o = some cs →
      (∃ extra, db1.courses = db.courses ++ extra ∧
        ∀ c ∈ extra, c.user = u ∧ c.title ∈ cs) ∧
      (∀ cid : Nat, (sid, cid) ∈ db1.studentCourses ↔
        ∃ c ∈ db1.courses, c.id = cid ∧ c.user = u ∧ c.title ∈ cs)) := by
  cases o with
  | none =>
    simp only [coursesStep, Prod.mk.injEq] at h
    obtain ⟨-, rfl⟩ := h
    exact ⟨rfl, rfl, rfl, rfl, fun c hc => hc, fun r _ => Iff.rfl,
      fun _ => rfl, fun cs hcs => Option.noConfusion hcs⟩
  | some cs =>
    simp only [coursesStep] at h
    obtain ⟨hstu, htg, hst, hnsi, ⟨extra, hcrs, hextra⟩, hmono, honly, hiff⟩ :=
      gocCoursesAttach_spec u sid cs _ db1 h
    have hclr : ∀ r : Nat × Nat, r ∈ (clearCourses db sid).studentCourses ↔
        r ∈ db.studentCourses ∧ r.1 ≠ sid := mem_clearCourses_sc db sid
    refine ⟨by rw [hstu]; rfl, by rw [htg]; rfl, by rw [hst]; rfl,
      by rw [hnsi]; rfl, ?_, ?_, fun hn => Option.noConfusion hn, ?_⟩
    · intro c hc
      have : c ∈ (clearCourses db sid).courses := hc
      rw [hcrs]
      exact List.mem_append_left _ this
    · intro r hr
      constructor
      · intro hmem
        rcases honly r hmem with h1 | h1
        · exact ((hclr r).mp h1).1
        · exact absurd h1 hr
      · intro hmem
        exact hmono r ((hclr r).mpr ⟨hmem, hr⟩)
    · rintro cs' hcs'
      obtain rfl : cs = cs' := by injection hcs'
      constructor
      · exact ⟨extra, by rw [hcrs]; rfl, hextra⟩
      · intro cid
        rw [hiff cid]
        constructor
        · rintro (h1 | h1)
          · exact absurd ((hclr _).mp h1).2 (by simp)
          · exact h1
        · intro h1
          exact Or.inr h1

/-- Decomposition of a successful `updateStudent` run into its get-object,
tags, courses and save phases. -/
theorem updateStudent_ok (db : DB) (u sid : Nat) (p : RawPayload)
    (s' : Student) (db' : DB)
    (h : updateStudent db u sid p = (Except.ok s', db')) :
    ∃ inst db1 db2,
      getObject db u sid = some inst ∧
      tagsStep db u sid (toValidated p).tags = (Except.ok (), db1) ∧
      coursesStep db1 u sid (toValidated p).courses = (Except.ok (), db2) ∧
      s' = applyAttrs inst (toValidated p) ∧
      db' = saveStudent db2 s' := by
  unfold updateStudent at h
  split at h
  · simp at h
  · rename_i inst hinst
    split at h
    · simp at h
    · rename_i u1 db1 hstep1
      split at h
      · simp at h
      · rename_i u2 db2 hstep2
        simp only [Prod.mk.injEq, Except.ok.injEq] at h
        obtain ⟨hs', hdb'⟩ := h
        subst hs'
        exact ⟨inst, db1, db2, hinst, by cases u1; exact hstep1,
          by cases u2; exact hstep2, rfl, hdb'.symm⟩

/-! ### Queryset evaluation lemmas -/

theorem parseFilterParam_none : parseFilterParam none = Except.ok none := rfl

theorem parseFilterParam_empty : parseFilterParam (some "") = Except.ok none := by
  simp [parseFilterParam]

theorem parseFilterParam_some_ok (s : String) (ids : List Int)
    (hs : s ≠ "") (hp : paramsToInts s = some ids) :
    parseFilterParam (some s) = Except.ok (some ids) := by
  simp only [parseFilterParam]
  rw [if_neg hs, hp]

theorem parseFilterParam_some_fail (s : String)
    (hs : s ≠ "") (hp : paramsToInts s = none) :
    parseFilterParam (some s) = Except.error ApiError.serverError := by
  simp only [parseFilterParam]
  rw [if_neg hs, hp]

theorem parseAssignedOnly_none : parseAssignedOnly none = Except.ok false := rfl

theorem parseAssignedOnly_some (s : String) (n : Int) (hp : pyInt? s = some n) :
    parseAssignedOnly (some s) = Except.ok (decide (n ≠ 0)) := by
  simp only [parseAssignedOnly]
  rw [hp]

theorem parseAssignedOnly_fail (s : String) (hp : pyInt? s = none) :
    parseAssignedOnly (some s) = Except.error ApiError.serverError := by
  simp only [parseAssignedOnly]
  rw [hp]

theorem studentQueryset_none_none (db : DB) (u : Nat) :
    studentQueryset db u none none =
      Except.ok ((sortedBy studentDescId
        (db.students.filter (fun s => s.user = u))).dedup) := rfl

theorem studentQueryset_empty_eq_none_left (db : DB) (u : Nat) (cp : Option String) :
    studentQueryset db u (some "") cp = studentQueryset db u none cp := by
  unfold studentQueryset
  rw [parseFilterParam_empty, parseFilterParam_none]

theorem studentQueryset_empty_eq_none_right (db : DB) (u : Nat) (tp : Option String) :
    studentQueryset db u tp (some "") = studentQueryset db u tp none := by
  unfold studentQueryset
  rw [parseFilterParam_empty, parseFilterParam_none]

theorem studentQueryset_tags_ok (db : DB) (u : Nat) (s : String) (ids : List Int)
    (hs : s ≠ "") (hp : paramsToInts s = some ids) :
    studentQueryset db u (some s) none =
      Except.ok ((sortedBy studentDescId ((tagFilterRows db ids db.students).filter
        (fun x => x.user = u))).dedup) := by
  unfold studentQueryset
  rw [parseFilterParam_some_ok s ids hs hp, parseFilterParam_none]

theorem studentQueryset_courses_ok (db : DB) (u : Nat) (s : String) (ids : List Int)
    (hs : s ≠ "") (hp : paramsToInts s = some ids) :
    studentQueryset db u none (some s) =
      Except.ok ((sortedBy studentDescId ((courseFilterRows db ids db.students).filter
        (fun x => x.user = u))).dedup) := by
  unfold studentQueryset
  rw [parseFilterParam_none, parseFilterParam_some_ok s ids hs hp]

theorem studentQueryset_tags_fail (db : DB) (u : Nat) (s : String)
    (cp : Option String) (hs : s ≠ "") (hp : paramsToInts s = none) :
    studentQueryset db u (some s) cp = Except.error ApiError.serverError := by
  unfold studentQueryset
  rw [parseFilterParam_some_fail s hs hp]

theorem studentQueryset_courses_fail (db : DB) (u : Nat) (s : String)
    (hs : s ≠ "") (hp : paramsToInts s = none) :
    studentQueryset db u none (some s) = Except.error ApiError.serverError := by
  unfold studentQueryset
  rw [parseFilterParam_none, parseFilterParam_some_fail s hs hp]

theorem studentQueryset_ok_shape (db : DB) (u : Nat) (tp cp : Option String)
    (res : List Student) (h : studentQueryset db u tp cp = Except.ok res) :
    ∃ qs : List Student,
      res = (sortedBy studentDescId (qs.filter (fun s => s.user = u))).dedup := by
  unfold studentQueryset at h
  rcases htp : parseFilterParam tp with e | otids
  · rw [htp] at h
    cases h
  · rw [htp] at h
    rcases hcp : parseFilterParam cp with e | ocids
    · rw [hcp] at h
      cases h
    · rw [hcp] at h
      simp only [Except.ok.injEq] at h
      exact ⟨_, h.symm⟩

theorem tagQueryset_none (db : DB) (u : Nat) :
    tagQueryset db u none =
      Except.ok ((sortedBy tagDescTitle
        (db.tags.filter (fun t => t.user = u))).dedup) := rfl

theorem tagQueryset_truthy (db : DB) (u : Nat) (s : String) (n : Int)
    (hp : pyInt? s = some n) (hn : n ≠ 0) :
    tagQueryset db u (some s) =
      Except.ok ((sortedBy tagDescTitle
        ((assignedTagRows db db.tags).filter (fun t => t.user = u))).dedup) := by
  unfold tagQueryset
  rw [parseAssignedOnly_some s n hp]
  simp [hn]

theorem tagQueryset_falsy (db : DB) (u : Nat) (s : String)
    (hp : pyInt? s = some 0) :
    tagQueryset db u (some s) = tagQueryset db u none := by
  unfold tagQueryset
  rw [parseAssignedOnly_some s 0 hp, parseAssignedOnly_none]
  simp

theorem tagQueryset_ok_shape (db : DB) (u : Nat) (ap : Option String)
    (res : List Tag) (h : tagQueryset db u ap = Except.ok res) :
    ∃ qs : List Tag,
      res = (sortedBy tagDescTitle (qs.filter (fun t => t.user = u))).dedup := by
  unfold tagQueryset at h
  rcases hap : parseAssignedOnly ap with e | b
  · rw [hap] at h
    cases h
  · rw [hap] at h
    simp only [Except.ok.injEq] at h
    exact ⟨_, h.symm⟩

theorem courseQueryset_none (db : DB) (u : Nat) :
    courseQueryset db u none =
      Except.ok ((sortedBy courseDescTitle
        (db.courses.filter (fun t => t.user = u))).dedup) := rfl

theorem courseQueryset_truthy (db : DB) (u : Nat) (s : String) (n : Int)
    (hp : pyInt? s = some n) (hn : n ≠ 0) :
    courseQueryset db u (some s) =
      Except.ok ((sortedBy courseDescTitle
        ((assignedCourseRows db db.courses).filter (fun t => t.user = u))).dedup) := by
  unfold courseQueryset
  rw [parseAssignedOnly_some s n hp]
  simp [hn]

theorem courseQueryset_falsy (db : DB) (u : Nat) (s : String)
    (hp : pyInt? s = some 0) :
    courseQueryset db u (some s) = courseQueryset db u none := by
  unfold courseQueryset
  rw [parseAssignedOnly_some s 0 hp, parseAssignedOnly_none]
  simp

theorem courseQueryset_ok_shape (db : DB) (u : Nat) (ap : Option String)
    (res : List Course) (h : courseQueryset db u ap = Except.ok res) :
    ∃ qs : List Course,
      res = (sortedBy courseDescTitle (qs.filter (fun t => t.user = u))).dedup := by
  unfold courseQueryset at h
  rcases hap : parseAssignedOnly ap with e | b
  · rw [hap] at h
    cases h
  · rw [hap] at h
    simp only [Except.ok.injEq] at h
    exact ⟨_, h.symm⟩

theorem leAux_iff : ∀ as bs : List Char,
    leAux as bs = true ↔ ¬ List.Lex (· < ·) bs as
  | [], bs => by
    simp only [leAux, true_iff]
    exact List.Lex.not_nil_right _ _
  | a :: as, [] => by
    simp only [leAux]
    constructor
    · intro h
      cases h
    · intro h
      exact absurd List.Lex.nil h
  | a :: as, b :: bs => by
    simp only [leAux]
    rcases lt_trichotomy a b with hab | heq | hba
    · rw [if_pos hab]
      simp only [true_iff]
      intro hlex
      cases hlex with
      | cons h2 => exact lt_irrefl _ hab
      | rel h2 => exact lt_asymm hab h2
    · subst heq
      rw [if_neg (lt_irrefl a), if_neg (lt_irrefl a), leAux_iff as bs]
      constructor
      · intro h hlex
        cases hlex with
        | cons h2 => exact h h2
        | rel h2 => exact lt_irrefl a h2
      · intro h hl
        exact h (List.Lex.cons hl)
    · rw [if_neg (lt_asymm hba), if_pos hba]
      simp only [Bool.false_eq_true, false_iff, not_not]
      exact List.Lex.rel hba

/-- The executable string comparison agrees with the mathematical
(lexicographic) order on `String`. -/
theorem strLeb_iff (s t : String) : strLeb s t = true ↔ s ≤ t := by
  rw [String.le_iff_toList_le, ← not_lt]
  exact leAux_iff s.data t.data

theorem studentDescId_total (a b : Student) :
    studentDescId a b = true ∨ studentDescId b a = true := by
  simp only [studentDescId, decide_eq_true_eq]
  exact Nat.le_total b.id a.id

theorem studentDescId_trans (a b c : Student) (hab : studentDescId a b = true)
    (hbc : studentDescId b c = true) : studentDescId a c = true := by
  simp only [studentDescId, decide_eq_true_eq] at *
  exact le_trans hbc hab

theorem tagDescTitle_total (a b : Tag) :
    tagDescTitle a b = true ∨ tagDescTitle b a = true := by
  simp only [tagDescTitle, strLeb_iff]
  exact le_total b.title a.title

theorem tagDescTitle_trans (a b c : Tag) (hab : tagDescTitle a b = true)
    (hbc : tagDescTitle b c = true) : tagDescTitle a c = true := by
  simp only [tagDescTitle, strLeb_iff] at *
  exact le_trans hbc hab

theorem courseDescTitle_total (a b : Course) :
    courseDescTitle a b = true ∨ courseDescTitle b a = true := by
  simp only [courseDescTitle, strLeb_iff]
  exact le_total b.title a.title

theorem courseDescTitle_trans (a b c : Course) (hab : courseDescTitle a b = true)
    (hbc : courseDescTitle b c = true) : courseDescTitle a c = true := by
  simp only [courseDescTitle, strLeb_iff] at *
  exact le_trans hbc hab

/-! ### Claims -/

/-- C9: every successful Student list result is ordered by descending id
(ids come from an increasing sequence, so most-recently created first), and
every successful Tag or Course list result is ordered by descending title
(`order_by('-id')` resp. `order_by('-title')` in the two `get_queryset`
methods). -/
theorem c9_list_ordering :
    (∀ (db : DB) (u : Nat) (tp cp : Option String) (res : List Student),
      studentQueryset db u tp cp = Except.ok res →
      res.Pairwise (fun a b => b.id ≤ a.id)) ∧
    (∀ (db : DB) (u : Nat) (ap : Option String) (res : List Tag),
      tagQueryset db u ap = Except.ok res →
      res.Pairwise (fun a b => b.title ≤ a.title)) ∧
    (∀ (db : DB) (u : Nat) (ap : Option String) (res : List Course),
      courseQueryset db u ap = Except.ok res →
      res.Pairwise (fun a b => b.title ≤ a.title)) := by
  refine ⟨?_, ?_, ?_⟩
  · intro db u tp cp res h
    obtain ⟨qs, rfl⟩ := studentQueryset_ok_shape db u tp cp res h
    have hp := pairwise_pipeline studentDescId studentDescId_total
      studentDescId_trans (fun s => s.user = u) qs
    exact hp.imp (fun hab => by simpa [studentDescId] using hab)
  · intro db u ap res h
    obtain ⟨qs, rfl⟩ := tagQueryset_ok_shape db u ap res h
    have hp := pairwise_pipeline tagDescTitle tagDescTitle_total
      tagDescTitle_trans (fun t => t.user = u) qs
    exact hp.imp (fun hab => (strLeb_iff _ _).mp hab)
  · intro db u ap res h
    obtain ⟨qs, rfl⟩ := courseQueryset_ok_shape db u ap res h
    have hp := pairwise_pipeline courseDescTitle courseDescTitle_total
      courseDescTitle_trans (fun t => t.user = u) qs
    exact hp.imp (fun hab => (strLeb_iff _ _).mp hab)

/-- Witness for C9 on the populated store. -/
theorem c9_witness :
    ([exS2, exS1] : List Student).Pairwise (fun a b => b.id ≤ a.id) ∧
    ([exT1, exT3, exT2] : List Tag).Pairwise (fun a b => b.title ≤ a.title) :=
  ⟨c9_list_ordering.1 exDB 1 none none [exS2, exS1] (by decide),
   c9_list_ordering.2.1 exDB 1 (some "1") [exT1, exT3, exT2] (by decide)⟩

/-- C10: a `tags` or `courses` query parameter that is present but equal to
the empty string is treated exactly like an absent parameter (`if tags:`
is falsy for `''`): no label filter is applied and all of the owner's
students are returned, not an error or an empty result. -/
theorem c10_empty_filter_param :
    (∀ (db : DB) (u : Nat) (cp : Option String),
      studentQueryset db u (some "") cp = studentQueryset db u none cp) ∧
    (∀ (db : DB) (u : Nat) (tp : Option String),
      studentQueryset db u tp (some "") = studentQueryset db u tp none) ∧
    (∀ (db : DB) (u : Nat) (res : List Student),
      studentQueryset db u (some "") (some "") = Except.ok res →
      ∀ s : Student, s ∈ res ↔ s ∈ db.students ∧ s.user = u) := by
  refine ⟨studentQueryset_empty_eq_none_left, studentQueryset_empty_eq_none_right, ?_⟩
  intro db u res h
  rw [studentQueryset_empty_eq_none_left, studentQueryset_empty_eq_none_right,
    studentQueryset_none_none] at h
  simp only [Except.ok.injEq] at h
  subst h
  intro s
  rw [mem_pipeline]
  simp

/-- Witness for C10 on the populated store. -/
theorem c10_witness :
    exS1 ∈ ([exS2, exS1] : List Student) ↔ exS1 ∈ exDB.students ∧ exS1.user = 1 :=
  c10_empty_filter_param.2.2 exDB 1 [exS2, exS1] (by decide) exS1

/-- C4: with a `tags` (resp. `courses`) filter of ids, the Student list is
exactly the owner's students associated with at least one of the given
label ids (OR across ids, AND with ownership), and, thanks to
`.distinct()`, every student appears at most once even when it matches
several of the ids. -/
theorem c4_label_id_filter :
    (∀ (db : DB) (u : Nat) (str : String) (ids : List Int) (res : List Student),
      str ≠ "" → paramsToInts str = some ids →
      studentQueryset db u (some str) none = Except.ok res →
      (∀ s : Student, s ∈ res ↔
        s ∈ db.students ∧ s.user = u ∧
        ∃ r ∈ db.studentTags, r.1 = s.id ∧ (r.2 : Int) ∈ ids) ∧
      res.Nodup) ∧
    (∀ (db : DB) (u : Nat) (str : String) (ids : List Int) (res : List Student),
      str ≠ "" → paramsToInts str = some ids →
      studentQueryset db u none (some str) = Except.ok res →
      (∀ s : Student, s ∈ res ↔
        s ∈ db.students ∧ s.user = u ∧
        ∃ r ∈ db.studentCourses, r.1 = s.id ∧ (r.2 : Int) ∈ ids) ∧
      res.Nodup) := by
  constructor
  · intro db u str ids res hs hp h
    rw [studentQueryset_tags_ok db u str ids hs hp] at h
    simp only [Except.ok.injEq] at h
    subst h
    refine ⟨?_, List.nodup_dedup _⟩
    intro s
    rw [mem_pipeline, mem_tagFilterRows]
    simp only [decide_eq_true_eq]
    tauto
  · intro db u str ids res hs hp h
    rw [studentQueryset_courses_ok db u str ids hs hp] at h
    simp only [Except.ok.injEq] at h
    subst h
    refine ⟨?_, List.nodup_dedup _⟩
    intro s
    rw [mem_pipeline, mem_courseFilterRows]
    simp only [decide_eq_true_eq]
    tauto

/-- Witness for C4: student 1 is associated with both requested tag ids yet
appears once; the result is duplicate-free. -/
theorem c4_witness :
    exS1 ∈ ([exS2, exS1] : List Student) ∧ ([exS2, exS1] : List Student).Nodup := by
  have h := c4_label_id_filter.1 exDB 1 "1,2" [1, 2] [exS2, exS1]
    (by decide) (by decide) (by decide)
  exact ⟨(h.1 exS1).mpr (by decide), h.2⟩

/-- C5: with `assigned_only` truthy a Tag/Course listing is exactly the
owner's labels that have at least one association row to a Student of any
owner (the `student__isnull=False` join is global, not owner-scoped),
deduplicated; with the parameter absent or falsy it is all of the owner's
labels. -/
theorem c5_assigned_only :
    (∀ (db : DB) (u : Nat) (s : String) (n : Int) (res : List Tag),
      WF db → pyInt? s = some n → n ≠ 0 →
      tagQueryset db u (some s) = Except.ok res →
      (∀ t : Tag, t ∈ res ↔
        t ∈ db.tags ∧ t.user = u ∧
        ∃ st ∈ db.students, (st.id, t.id) ∈ db.studentTags) ∧
      res.Nodup) ∧
    (∀ (db : DB) (u : Nat) (res : List Tag),
      tagQueryset db u none = Except.ok res →
      (∀ t : Tag, t ∈ res ↔ t ∈ db.tags ∧ t.user = u) ∧ res.Nodup) ∧
    (∀ (db : DB) (u : Nat) (s : String), pyInt? s = some 0 →
      tagQueryset db u (some s) = tagQueryset db u none) ∧
    (∀ (db : DB) (u : Nat) (s : String) (n : Int) (res : List Course),
      WF db → pyInt? s = some n → n ≠ 0 →
      courseQueryset db u (some s) = Except.ok res →
      (∀ c : Course, c ∈ res ↔
        c ∈ db.courses ∧ c.user = u ∧
        ∃ st ∈ db.students, (st.id, c.id) ∈ db.studentCourses) ∧
      res.Nodup) ∧
    (∀ (db : DB) (u : Nat) (res : List Course),
      courseQueryset db u none = Except.ok res →
      (∀ c : Course, c ∈ res ↔ c ∈ db.courses ∧ c.user = u) ∧ res.Nodup) ∧
    (∀ (db : DB) (u : Nat) (s : String), pyInt? s = some 0 →
      courseQueryset db u (some s) = courseQueryset db u none) := by
  refine ⟨?_, ?_, ?_, ?_, ?_, ?_⟩
  · intro db u s n res hWF hp hn h
    rw [tagQueryset_truthy db u s n hp hn] at h
    simp only [Except.ok.injEq] at h
    subst h
    refine ⟨?_, List.nodup_dedup _⟩
    intro t
    rw [mem_pipeline, mem_assignedTagRows]
    simp only [decide_eq_true_eq]
    constructor
    · rintro ⟨⟨htmem, r, hr, hrid⟩, hu⟩
      obtain ⟨⟨st, hst, hstid⟩, -⟩ := hWF.2.2.2.2.2.1 r hr
      refine ⟨htmem, hu, st, hst, ?_⟩
      have : (st.id, t.id) = r := by
        rw [hstid, ← hrid]
      rw [this]
      exact hr
    · rintro ⟨htmem, hu, st, hst, hrow⟩
      exact ⟨⟨htmem, (st.id, t.id), hrow, rfl⟩, hu⟩
  · intro db u res h
    rw [tagQueryset_none] at h
    simp only [Except.ok.injEq] at h
    subst h
    refine ⟨?_, List.nodup_dedup _⟩
    intro t
    rw [mem_pipeline]
    simp
  · intro db u s hp
    exact tagQueryset_falsy db u s hp
  · intro db u s n res hWF hp hn h
    rw [courseQueryset_truthy db u s n hp hn] at h
    simp only [Except.ok.injEq] at h
    subst h
    refine ⟨?_, List.nodup_dedup _⟩
    intro c
    rw [mem_pipeline, mem_assignedCourseRows]
    simp only [decide_eq_true_eq]
    constructor
    · rintro ⟨⟨hcmem, r, hr, hrid⟩, hu⟩
      obtain ⟨⟨st, hst, hstid⟩, -⟩ := hWF.2.2.2.2.2.2 r hr
      refine ⟨hcmem, hu, st, hst, ?_⟩
      have : (st.id, c.id) = r := by
        rw [hstid, ← hrid]
      rw [this]
      exact hr
    · rintro ⟨hcmem, hu, st, hst, hrow⟩
      exact ⟨⟨hcmem, (st.id, c.id), hrow, rfl⟩, hu⟩
  · intro db u res h
    rw [courseQueryset_none] at h
    simp only [Except.ok.injEq] at h
    subst h
    refine ⟨?_, List.nodup_dedup _⟩
    intro c
    rw [mem_pipeline]
    simp
  · intro db u s hp
    exact courseQueryset_falsy db u s hp

/-- Witness for C5: tag 3 ("Lunch", owned by owner 1) is attached only to
owner 2's student, yet `assigned_only=1` for owner 1 includes it — the
association-existence check is global; tag 1, attached to two students,
appears once. -/
theorem c5_witness :
    exT3 ∈ ([exT1, exT3, exT2] : List Tag) ∧
    ([exT1, exT3, exT2] : List Tag).Nodup := by
  have h := c5_assigned_only.1 exDB 1 "1" 1 [exT1, exT3, exT2]
    (by decide) (by decide) (by decide) (by decide)
  exact ⟨(h.1 exT3).mpr (by decide), h.2⟩

/-- C1: list results only ever contain the requesting owner's entities, and
a read, update or delete aimed at another owner's Student, Tag or Course
fails with `Http404` (`notFound`, not `forbidden`) while leaving the store
unchanged. -/
theorem c1_owner_isolation :
    (∀ (db : DB) (u : Nat) (tp cp : Option String) (res : List Student),
      studentQueryset db u tp cp = Except.ok res → ∀ s ∈ res, s.user = u) ∧
    (∀ (db : DB) (u : Nat) (ap : Option String) (res : List Tag),
      tagQueryset db u ap = Except.ok res → ∀ t ∈ res, t.user = u) ∧
    (∀ (db : DB) (u : Nat) (ap : Option String) (res : List Course),
      courseQueryset db u ap = Except.ok res → ∀ c ∈ res, c.user = u) ∧
    (∀ (db : DB) (A : Nat) (s : Student), WF db → s ∈ db.students → s.user ≠ A →
      readStudent db A s.id = Except.error ApiError.notFound ∧
      (∀ p : RawPayload,
        updateStudent db A s.id p = (Except.error ApiError.notFound, db)) ∧
      deleteStudent db A s.id = (Except.error ApiError.notFound, db)) ∧
    (∀ (db : DB) (A : Nat) (t : Tag), WF db → t ∈ db.tags → t.user ≠ A →
      (∀ ti : Option String,
        updateTag db A t.id ti = (Except.error ApiError.notFound, db)) ∧
      deleteTag db A t.id = (Except.error ApiError.notFound, db)) ∧
    (∀ (db : DB) (A : Nat) (c : Course), WF db → c ∈ db.courses → c.user ≠ A →
      (∀ ti : Option String,
        updateCourse db A c.id ti = (Except.error ApiError.notFound, db)) ∧
      deleteCourse db A c.id = (Except.error ApiError.notFound, db)) := by
  refine ⟨?_, ?_, ?_, ?_, ?_, ?_⟩
  · intro db u tp cp res h s hs
    obtain ⟨qs, rfl⟩ := studentQueryset_ok_shape db u tp cp res h
    exact of_decide_eq_true ((mem_pipeline _ _ qs s).mp hs).2
  · intro db u ap res h t ht
    obtain ⟨qs, rfl⟩ := tagQueryset_ok_shape db u ap res h
    exact of_decide_eq_true ((mem_pipeline _ _ qs t).mp ht).2
  · intro db u ap res h c hc
    obtain ⟨qs, rfl⟩ := courseQueryset_ok_shape db u ap res h
    exact of_decide_eq_true ((mem_pipeline _ _ qs c).mp hc).2
  · intro db A s hWF hs hu
    have hnone : getObject db A s.id = none :=
      getObject_eq_none db A s hs hu hWF.1
    refine ⟨?_, ?_, ?_⟩
    · unfold readStudent
      rw [hnone]
    · intro p
      unfold updateStudent
      rw [hnone]
    · unfold deleteStudent
      rw [hnone]
  · intro db A t hWF ht hu
    have hnone : getTagObject db A t.id = none :=
      getTagObject_eq_none db A t ht hu hWF.2.1
    refine ⟨?_, ?_⟩
    · intro ti
      unfold updateTag
      rw [hnone]
    · unfold deleteTag
      rw [hnone]
  · intro db A c hWF hc hu
    have hnone : getCourseObject db A c.id = none :=
      getCourseObject_eq_none db A c hc hu hWF.2.2.1
    refine ⟨?_, ?_⟩
    · intro ti
      unfold updateCourse
      rw [hnone]
    · unfold deleteCourse
      rw [hnone]

/-- Witness for C1: owner 1's operations against owner 2's student 3 and
tag 4 all return `notFound` and leave the store unchanged. -/
theorem c1_witness :
    readStudent exDB 1 exS3.id = Except.error ApiError.notFound ∧
    updateStudent exDB 1 exS3.id {} = (Except.error ApiError.notFound, exDB) ∧
    deleteStudent exDB 1 exS3.id = (Except.error ApiError.notFound, exDB) ∧
    deleteTag exDB 1 exT4.id = (Except.error ApiError.notFound, exDB) := by
  have h := c1_owner_isolation.2.2.2.1 exDB 1 exS3 (by decide) (by decide) (by decide)
  have h2 := c1_owner_isolation.2.2.2.2.1 exDB 1 exT4 (by decide) (by decide) (by decide)
  exact ⟨h.1, h.2.1 {}, h.2.2, h2.2⟩

/-- C2: label resolution is get-or-create per owner and title — a
descriptor whose title has exactly one match among the owner's labels
reuses that label and writes nothing, a descriptor with no match creates
exactly one new label with that owner and title; concretely, resolving
["Thai", "Dinner"] for an owner with no labels creates exactly 2 labels
and attaches both, and resolving ["Thai"] again for the same owner
attaches the existing label and creates 0 new ones. -/
theorem c2_get_or_create :
    (∀ (db : DB) (u : Nat) (title : String) (t : Tag),
      db.tags.filter (fun x => x.user = u && x.title = title) = [t] →
      getOrCreateTag db u title = (Except.ok (t, false), db)) ∧
    (∀ (db : DB) (u : Nat) (title : String),
      db.tags.filter (fun x => x.user = u && x.title = title) = [] →
      getOrCreateTag db u title =
        (Except.ok (⟨db.nextTagId, title, u⟩, true),
         { db with tags := db.tags ++ [⟨db.nextTagId, title, u⟩],
                   nextTagId := db.nextTagId + 1 })) ∧
    (∀ (db : DB) (u : Nat) (title : String) (c : Course),
      db.courses.filter (fun x => x.user = u && x.title = title) = [c] →
      getOrCreateCourse db u title = (Except.ok (c, false), db)) ∧
    (∀ (db : DB) (u : Nat) (title : String),
      db.courses.filter (fun x => x.user = u && x.title = title) = [] →
      getOrCreateCourse db u title =
        (Except.ok (⟨db.nextCourseId, title, u⟩, true),
         { db with courses := db.courses ++ [⟨db.nextCourseId, title, u⟩],
                   nextCourseId := db.nextCourseId + 1 })) ∧
    (gocTagsAttach exDB0 1 ["Thai", "Dinner"] 1 = (Except.ok (), exDB1) ∧
     exDB1.tags = [⟨1, "Thai", 1⟩, ⟨2, "Dinner", 1⟩] ∧
     (1, 1) ∈ exDB1.studentTags ∧ (1, 2) ∈ exDB1.studentTags) ∧
    (gocTagsAttach exDB1 1 ["Thai"] 2 = (Except.ok (), exDB2) ∧
     exDB2.tags = exDB1.tags ∧
     (2, 1) ∈ exDB2.studentTags) := by
  refine ⟨?_, ?_, ?_, ?_, by decide, by decide⟩
  · intro db u title t hf
    unfold getOrCreateTag
    rw [hf]
  · intro db u title hf
    unfold getOrCreateTag
    rw [hf]
  · intro db u title c hf
    unfold getOrCreateCourse
    rw [hf]
  · intro db u title hf
    unfold getOrCreateCourse
    rw [hf]

/-- Witness for C2: in the populated store, resolving "Thai" for owner 1
reuses tag 1 and writes nothing; resolving "Pasta" creates tag 5. -/
theorem c2_witness :
    getOrCreateTag exDB 1 "Thai" = (Except.ok (exT1, false), exDB) ∧
    getOrCreateTag exDB 1 "Pasta" =
      (Except.ok (⟨5, "Pasta", 1⟩, true),
       { exDB with tags := exDB.tags ++ [⟨5, "Pasta", 1⟩], nextTagId := 6 }) :=
  ⟨c2_get_or_create.1 exDB 1 "Thai" exT1 (by decide),
   c2_get_or_create.2.1 exDB 1 "Pasta" (by decide)⟩

/-- C3: on Student update, a present `tags` (resp. `courses`) field fully
replaces that association set — absence leaves it unchanged, `[]` clears
it without touching label entities, and a non-empty list makes the
attached set exactly the resolved label set; labels detached this way
still exist; each behaviour holds for every value of the other field
(quantification over the whole payload), so the two replacements are
independent. -/
theorem c3_update_replacement :
    ∀ (db : DB) (u sid : Nat) (p : RawPayload) (s' : Student) (db' : DB),
      updateStudent db u sid p = (Except.ok s', db') →
      ((p.tags = none → ∀ tid : Nat,
         ((sid, tid) ∈ db'.studentTags ↔ (sid, tid) ∈ db.studentTags)) ∧
       (p.tags = some [] →
         (∀ tid : Nat, (sid, tid) ∉ db'.studentTags) ∧ db'.tags = db.tags) ∧
       (∀ ts, p.tags = some ts → ∀ tid : Nat,
         ((sid, tid) ∈ db'.studentTags ↔
           ∃ t ∈ db'.tags, t.id = tid ∧ t.user = u ∧ t.title ∈ ts)) ∧
       (∀ t ∈ db.tags, t ∈ db'.tags)) ∧
      ((p.courses = none → ∀ cid : Nat,
         ((sid, cid) ∈ db'.studentCourses ↔ (sid, cid) ∈ db.studentCourses)) ∧
       (p.courses = some [] →
         (∀ cid : Nat, (sid, cid) ∉ db'.studentCourses) ∧ db'.courses = db.courses) ∧
       (∀ cs, p.courses = some cs → ∀ cid : Nat,
         ((sid, cid) ∈ db'.studentCourses ↔
           ∃ c ∈ db'.courses, c.id = cid ∧ c.user = u ∧ c.title ∈ cs)) ∧
       (∀ c ∈ db.courses, c ∈ db'.courses)) := by
  intro db u sid p s' db' h
  obtain ⟨inst, db1, db2, hinst, hstep1, hstep2, hs', hdb'⟩ :=
    updateStudent_ok db u sid p s' db' h
  obtain ⟨h1stu, h1crs, h1sc, h1nsi, h1tags, h1other, h1none, h1some⟩ :=
    tagsStep_spec db u sid (toValidated p).tags db1 hstep1
  obtain ⟨h2stu, h2tg, h2st, h2nsi, h2crs, h2other, h2none, h2some⟩ :=
    coursesStep_spec db1 u sid (toValidated p).courses db2 hstep2
  have hdbst : db'.studentTags = db2.studentTags := by
    rw [hdb']; rfl
  have hdbsc : db'.studentCourses = db2.studentCourses := by
    rw [hdb']; rfl
  have hdbtags : db'.tags = db2.tags := by
    rw [hdb']; rfl
  have hdbcrs : db'.courses = db2.courses := by
    rw [hdb']; rfl
  have hptags : (toValidated p).tags = p.tags := rfl
  have hpcrs : (toValidated p).courses = p.courses := rfl
  constructor
  · refine ⟨?_, ?_, ?_, ?_⟩
    · intro hn tid
      have hdb1 : db1 = db := h1none (by rw [hptags, hn])
      rw [hdbst, h2st, hdb1]
    · intro he
      obtain ⟨⟨extra, hext, hextra⟩, hiff⟩ := h1some [] (by rw [hptags, he])
      have hextnil : extra = [] := by
        cases extra with
        | nil => rfl
        | cons x xs => exact absurd (hextra x (List.mem_cons_self x xs)).2 (by simp)
      constructor
      · intro tid hmem
        rw [hdbst, h2st] at hmem
        obtain ⟨t, -, -, -, htl⟩ := (hiff tid).mp hmem
        simp at htl
      · rw [hdbtags, h2tg, hext, hextnil, List.append_nil]
    · intro ts hts tid
      obtain ⟨-, hiff⟩ := h1some ts (by rw [hptags, hts])
      rw [hdbst, h2st, hdbtags, h2tg]
      exact hiff tid
    · intro t ht
      rw [hdbtags, h2tg]
      exact h1tags t ht
  · refine ⟨?_, ?_, ?_, ?_⟩
    · intro hn cid
      have hdb2 : db2 = db1 := h2none (by rw [hpcrs, hn])
      rw [hdbsc, hdb2, h1sc]
    · intro he
      obtain ⟨⟨extra, hext, hextra⟩, hiff⟩ := h2some [] (by rw [hpcrs, he])
      have hextnil : extra = [] := by
        cases extra with
        | nil => rfl
        | cons x xs => exact absurd (hextra x (List.mem_cons_self x xs)).2 (by simp)
      constructor
      · intro cid hmem
        rw [hdbsc] at hmem
        obtain ⟨c, -, -, -, htl⟩ := (hiff cid).mp hmem
        simp at htl
      · rw [hdbcrs, hext, hextnil, List.append_nil, h1crs]
    · intro cs hcs cid
      obtain ⟨-, hiff⟩ := h2some cs (by rw [hpcrs, hcs])
      rw [hdbsc, hdbcrs]
      exact hiff cid
    · intro c hc
      rw [hdbcrs]
      exact h2crs c (by rw [h1crs]; exact hc)

/-- Witness for C3: updating student 1 with `tags: []` detaches its two
tags and neither creates nor destroys any tag entity. -/
theorem c3_witness :
    (1, 1) ∉ exDB3.studentTags ∧ exDB3.tags = exDB.tags := by
  have h := c3_update_replacement exDB 1 1 { tags := some [] } exS1 exDB3 (by decide)
  exact ⟨(h.1.2.1 rfl).1 1, (h.1.2.1 rfl).2⟩

/-- C8: the general update path never mutates the owner or the image —
`user` and `image` are not serializer fields, so any values supplied for
them are dropped by validation and the result is literally the same as
without them; every writable column absent from the payload keeps its old
value; the image is reachable only through the dedicated upload
serializer, whose fields are exactly `[id, image]`. -/
theorem c8_update_frame :
    (∀ (db : DB) (u sid : Nat) (p : RawPayload) (s' : Student) (db' : DB),
      updateStudent db u sid p = (Except.ok s', db') →
      ∀ inst : Student, getObject db u sid = some inst →
      s'.user = inst.user ∧
      s'.image = inst.image ∧
      (p.name = none → s'.name = inst.name) ∧
      (p.email = none → s'.email = inst.email) ∧
      (p.address = none → s'.address = inst.address) ∧
      (p.birthday = none → s'.birthday = inst.birthday) ∧
      (p.link = none → s'.link = inst.link)) ∧
    (∀ (db : DB) (u sid : Nat) (p : RawPayload) (v : Option Nat) (w : Option String),
      updateStudent db u sid { p with user := v, image := w } =
        updateStudent db u sid p) ∧
    serializerFields SerializerKind.studentImage = ["id", "image"] := by
  refine ⟨?_, fun db u sid p v w => rfl, rfl⟩
  intro db u sid p s' db' h inst hinst
  obtain ⟨inst', db1, db2, hinst', hstep1, hstep2, hs', hdb'⟩ :=
    updateStudent_ok db u sid p s' db' h
  rw [hinst] at hinst'
  obtain rfl : inst = inst' := by injection hinst'
  subst hs'
  refine ⟨rfl, rfl, ?_, ?_, ?_, ?_, ?_⟩ <;> intro hn <;>
    simp [applyAttrs, toValidated, hn]

/-- Witness for C8: updating student 1 with a payload that renames it and
also supplies a different owner and an image leaves owner and image
untouched (and equals the run without those keys). -/
theorem c8_witness :
    exS1X.user = exS1.user ∧ exS1X.image = exS1.image ∧
    updateStudent exDB 1 1 exPayload =
      updateStudent exDB 1 1 { name := some "X" } := by
  have h := c8_update_frame.1 exDB 1 1 exPayload exS1X exDB4 (by decide) exS1 (by decide)
  have h2 := c8_update_frame.2.1 exDB 1 1 { name := some "X" } (some 99) (some "f.png")
  exact ⟨h.1, h.2.1, h2⟩

/-- C6 as stated is false on the code: a malformed id in a filter reaches
bare `int()`, whose `ValueError` is not a DRF `ValidationError` — the REST
framework's exception handler translates only `APIException`/`Http404`/
`PermissionDenied`, so the request dies as a server error (HTTP 500)
without field-level detail, not as a client validation error. -/
theorem c6_counterexample :
    studentQueryset exDB 1 (some "abc") none = Except.error ApiError.serverError ∧
    ApiError.serverError ≠ ApiError.validationError := by
  constructor
  · decide
  · decide

/-- C6 amended: a malformed non-integer id in the `tags` or `courses`
filter makes the request fail before any store mutation (a list request
never mutates), but as an uncaught `ValueError` surfacing as a server
error, not as a client validation error with field-level detail. -/
theorem c6_amended :
    (∀ (db : DB) (u : Nat) (s : String) (cp : Option String),
      s ≠ "" → paramsToInts s = none →
      studentQueryset db u (some s) cp = Except.error ApiError.serverError) ∧
    (∀ (db : DB) (u : Nat) (s : String),
      s ≠ "" → paramsToInts s = none →
      studentQueryset db u none (some s) = Except.error ApiError.serverError) ∧
    ApiError.serverError ≠ ApiError.validationError ∧
    paramsToInts "abc" = none ∧ paramsToInts "1,2x" = none := by
  refine ⟨?_, ?_, by decide, by decide, by decide⟩
  · intro db u s cp hs hp
    exact studentQueryset_tags_fail db u s cp hs hp
  · intro db u s hs hp
    exact studentQueryset_courses_fail db u s hs hp

/-- Witness for C6 (amended): the parse of "1,2x" fails and the list
request surfaces a server error. -/
theorem c6_witness :
    studentQueryset exDB 1 (some "1,2x") none = Except.error ApiError.serverError :=
  c6_amended.1 exDB 1 "1,2x" none (by decide) (by decide)

/-- C7 as stated is false on the code: `StudentViewSet.serializer_class`
is `StudentSerializer` and `get_serializer_class` returns it for every
action except `list` and `upload_image`, so a detail read (`retrieve`)
uses the compact projection, which has no `image` field; and the compact
projection used for list/create does include `courses` in its
`Meta.fields`. -/
theorem c7_counterexample :
    "image" ∉ serializerFields (getSerializerClass "retrieve") ∧
    "courses" ∈ serializerFields (getSerializerClass "list") := by
  constructor
  · decide
  · decide

/-- C7 amended: the detail read uses the same compact `StudentSerializer`
projection as list/create — it includes `courses` but omits `image`;
`StudentDetailSerializer` (which adds `image`) exists but is never
selected by the view; `image` lives only in the upload serializer; and a
detail read of an absent or non-owned id still returns 404. -/
theorem c7_amended :
    getSerializerClass "retrieve" = SerializerKind.student ∧
    serializerFields SerializerKind.student =
      ["id", "name", "email", "address", "birthday", "link", "tags", "courses"] ∧
    "image" ∉ serializerFields SerializerKind.student ∧
    "courses" ∈ serializerFields SerializerKind.student ∧
    "image" ∈ serializerFields SerializerKind.studentDetail ∧
    (∀ a : String, getSerializerClass a ≠ SerializerKind.studentDetail) ∧
    (∀ (db : DB) (u sid : Nat), getObject db u sid = none →
      readStudent db u sid = Except.error ApiError.notFound) ∧
    (∀ (db : DB) (u : Nat) (st : Student), WF db → st ∈ db.students → st.user ≠ u →
      readStudent db u st.id = Except.error ApiError.notFound) := by
  refine ⟨rfl, rfl, by decide, by decide, by decide, ?_, ?_, ?_⟩
  · intro a
    unfold getSerializerClass
    split
    · intro hc
      cases hc
    · split
      · intro hc
        cases hc
      · intro hc
        cases hc
  · intro db u sid hnone
    unfold readStudent
    rw [hnone]
  · intro db u st hWF hst hu
    unfold readStudent
    rw [getObject_eq_none db u st hst hu hWF.1]

/-- Witness for C7 (amended): reading owner 2's student as owner 1 is a
404, and an id that exists nowhere is a 404. -/
theorem c7_witness :
    readStudent exDB 1 exS3.id = Except.error ApiError.notFound ∧
    readStudent exDB 1 99 = Except.error ApiError.notFound :=
  ⟨c7_amended.2.2.2.2.2.2.2 exDB 1 exS3 (by decide) (by decide) (by decide),
   c7_amended.2.2.2.2.2.2.1 exDB 1 99 (by decide)⟩

end StudentApp
